import Mathlib

/-!
Verification of the expression-graph core of `marian-dev-wmt2020`
(`src/graph/expression_graph.h`, `src/graph/expression_graph.cpp`).

The graph container, the memoization cache, registration (`add`), `clear`,
`param`, the forward/backward passes and the checkpoint planner are embedded
shallowly from the C++ source.  Node-level code (`node.h`, `node_operators.h`,
`parameters.h`, `tensor_allocator.h`) is not part of the sources under study;
those operations (`equal`, `set_zero_adjoint`, `init_dependent`, the per-kind
`forward`/`backward` bodies, the allocator's probing mode) are modelled from
the specification and carry a doc comment saying so.

Nodes live in an append-only arena; a node reference (`ref`) is its index in
the arena, playing the role of the C++ `Expr` shared pointer.  Tensors are
modelled as single `Int` cells; buffers are association lists from refs to
values, with absence of a key standing for a deallocated (`null`) buffer.
-/

namespace Marian

/-- Look a key up in an association list (first match wins). -/
def alookup {κ α : Type} [BEq κ] (m : List (κ × α)) (k : κ) : Option α :=
  match m.find? (fun kv => kv.1 == k) with
  | some kv => some kv.2
  | none => none

/-- Insert (or overwrite) a key in an association list. -/
def ainsert {κ α : Type} [BEq κ] (m : List (κ × α)) (k : κ) (v : α) :
    List (κ × α) :=
  (k, v) :: m.filter (fun kv => !(kv.1 == k))

/-- Remove a key from an association list (models freeing a buffer). -/
def aremove {κ α : Type} [BEq κ] (m : List (κ × α)) (k : κ) : List (κ × α) :=
  m.filter (fun kv => !(kv.1 == k))

theorem alookup_ainsert_self {κ α : Type} [BEq κ] [LawfulBEq κ]
    (m : List (κ × α)) (k : κ) (v : α) : alookup (ainsert m k v) k = some v := by
  simp [alookup, ainsert]

theorem alookup_filter_ne {κ α : Type} [BEq κ] [LawfulBEq κ]
    (m : List (κ × α)) (k k' : κ) (h : k' ≠ k) :
    alookup (m.filter (fun kv => !(kv.1 == k))) k' = alookup m k' := by
  induction m with
  | nil => rfl
  | cons kv rest ih =>
    by_cases hkv : kv.1 = k
    · have h1 : (kv.1 == k) = true := by simp [hkv]
      have h2 : (kv.1 == k') = false := by
        simp only [beq_eq_false_iff_ne, ne_eq, hkv]
        exact fun he => h he.symm
      simp only [alookup, List.filter, h1, Bool.not_true, List.find?, h2] at ih ⊢
      exact ih
    · have h1 : (kv.1 == k) = false := by simp [hkv]
      by_cases hkv' : kv.1 = k'
      · have h2 : (kv.1 == k') = true := by simp [hkv']
        simp [alookup, List.filter, h1, List.find?, h2]
      · have h2 : (kv.1 == k') = false := by simp [hkv']
        simp only [alookup, List.filter, h1, Bool.not_false, List.find?, h2]
          at ih ⊢
        exact ih

theorem alookup_ainsert_ne {κ α : Type} [BEq κ] [LawfulBEq κ]
    (m : List (κ × α)) (k k' : κ) (v : α) (h : k' ≠ k) :
    alookup (ainsert m k v) k' = alookup m k' := by
  have hk : ((k, v).1 == k') = false := by
    simp only [beq_eq_false_iff_ne, ne_eq]
    exact fun he => h he.symm
  simp only [alookup, ainsert, List.find?, hk]
  exact alookup_filter_ne m k k' h

/-- Insert into a list used as a set (the C++ `unordered_set::insert`). -/
def insertSet (l : List Nat) (x : Nat) : List Nat :=
  if l.contains x then l else l ++ [x]

/-- Operation vocabulary.  Modelled from the spec: node behaviour "varies by
operation kind" (§9); the actual operator classes (`node_operators_unary.h`
etc.) are not under the sources studied.  `leaf i` is a leaf node whose
initializer writes the value `i` (constants and parameters); `scale k` is a
unary node computing `k * x`; `add2` and `mul2` are binary sum and product. -/
inductive Op where
  | leaf : Int → Op
  | scale : Int → Op
  | add2 : Op
  | mul2 : Op
deriving DecidableEq

/-- Construction-time node record: operation kind tag (the C++ `type()`
string), semantic operation, shape, ordered children (arena refs), the
`trainable` and `memoize` flags and the structural hash.  The hash is carried
as a field because the source computes it from kind, shape and children in
node classes outside the studied sources; theorems state the needed
compatibility (structurally identical nodes carry the same hash) explicitly. -/
structure NodeData where
  type : String
  op : Op
  shape : List Nat
  children : List Nat
  trainable : Bool
  memoize : Bool
  hash : Nat
deriving DecidableEq

instance : Inhabited NodeData :=
  ⟨⟨"", Op.leaf 0, [], [], false, false, 0⟩⟩

/-- Modelled from the spec: `equal(other)` is a "deep structural comparison,
used to break hash ties" (§4.1); the node classes implementing it are not
under the studied sources.  Equality of operation kind, shape and children. -/
def NodeData.equal (a b : NodeData) : Bool :=
  a.type == b.type && a.op == b.op && a.shape == b.shape
    && a.children == b.children

/-- The whole mutable state of one `ExpressionGraph` (plus the node arena).
Field names follow the C++ members.  `vals`, `cacheVals` and `paramVals` are
the buffers of the three tensor allocators (`tensors_`, `cache_` and the one
owned by `params_`); `grads` and `paramGrads` likewise split gradient buffers
by owning allocator. -/
structure GraphState where
  arena : List NodeData
  count : Nat
  ids : List (Nat × Nat)
  nodesForward : List Nat
  nodesBackward : List Nat
  topNodes : List Nat
  shortterm : List (Nat × List Nat)
  longterm : List (Nat × List Nat)
  paramsMap : List (String × Nat)
  vals : List (Nat × Int)
  cacheVals : List (Nat × Int)
  paramVals : List (Nat × Int)
  grads : List (Nat × Int)
  paramGrads : List (Nat × Int)
  subtapes : List (Nat × List Nat)
  checkpoints : List Nat
  inferenceOnly : Bool
  checkpointing : Bool
  reloaded : Bool
  namespaceStr : String
deriving DecidableEq

/-- The freshly constructed graph (`ExpressionGraph(inference, ...)` with an
empty arena; `checkpointing` is the gradient-checkpointing toggle of this
branch, modelled from the spec §4.4). -/
def initialGraph (inference : Bool) (checkpointing : Bool) : GraphState :=
  { arena := [], count := 0, ids := [], nodesForward := [], nodesBackward := []
  , topNodes := [], shortterm := [], longterm := [], paramsMap := []
  , vals := [], cacheVals := [], paramVals := [], grads := [], paramGrads := []
  , subtapes := [], checkpoints := [], inferenceOnly := inference
  , checkpointing := checkpointing, reloaded := false, namespaceStr := "" }

/-- Dereference an arena ref (the C++ pointer dereference). -/
def nodeAt (st : GraphState) (ref : Nat) : NodeData :=
  (st.arena.get? ref).getD default

/-- Append a ref to a hash bucket (`(*map)[hash].push_back(node)`). -/
def pushBucket (m : List (Nat × List Nat)) (h : Nat) (ref : Nat) :
    List (Nat × List Nat) :=
  ainsert m h ((alookup m h).getD [] ++ [ref])

/-- Scan a short-term hash bucket for the first entry that is `equal()` to the
query node (`expression_graph.h:91-100`). -/
def shorttermFind (st : GraphState) (n : NodeData) (h : Nat) : Option Nat :=
  match alookup st.shortterm h with
  | none => none
  | some refs => refs.find? (fun r => n.equal (nodeAt st r))

/-- `Tensors::findOrRemember` (`expression_graph.h:71-103`).  For memoizable
non-parameter nodes the long-term cache is consulted first and returns the
first bucket entry *without* an `equal()` check (the check is commented out in
the source); on a long-term miss the candidate is recorded there.  The
short-term cache is then scanned with a full `equal()` check; on a miss the
candidate is recorded and `none` is returned. -/
def findOrRemember (st : GraphState) (ref : Nat) : Option Nat × GraphState :=
  let n := nodeAt st ref
  let h := n.hash
  if n.type != "param" && n.memoize then
    match alookup st.longterm h with
    | some (found :: _) => (some found, st)
    | _ =>
      let st1 := { st with longterm := pushBucket st.longterm h ref }
      match shorttermFind st1 n h with
      | some found => (some found, st1)
      | none => (none, { st1 with shortterm := pushBucket st1.shortterm h ref })
  else
    match shorttermFind st n h with
    | some found => (some found, st)
    | none => (none, { st with shortterm := pushBucket st.shortterm h ref })

/-- `ExpressionGraph::add` (`expression_graph.cpp:25-47`).  On a cache hit the
found node is returned unchanged; otherwise the node gets the next id, is
appended to the forward tape, in training mode trainable nodes are appended to
the backward tape and recorded as roots, and the children of a node that is
itself a root are erased from the root set. -/
def add (st : GraphState) (ref : Nat) : Nat × GraphState :=
  match findOrRemember st ref with
  | (some found, st1) => (found, st1)
  | (none, st1) =>
    let n := nodeAt st1 ref
    let st2 := { st1 with ids := ainsert st1.ids ref st1.count
                        , count := st1.count + 1
                        , nodesForward := st1.nodesForward ++ [ref] }
    let st3 :=
      if !st2.inferenceOnly && n.trainable then
        { st2 with nodesBackward := st2.nodesBackward ++ [ref]
                 , topNodes := insertSet st2.topNodes ref }
      else st2
    let st4 :=
      if st3.topNodes.contains ref then
        { st3 with topNodes :=
            st3.topNodes.filter (fun r => !n.children.contains r) }
      else st3
    (ref, st4)

/-- Construct a node object in the arena (the `new T(...)` step of the
`Expression<T>` helper); returns its fresh ref. -/
def construct (st : GraphState) (n : NodeData) : Nat × GraphState :=
  (st.arena.length, { st with arena := st.arena ++ [n] })

/-- The `Expression<T>` helper (`expression_graph.h:527-531`): construct the
node, then register it with the graph. -/
def expression (st : GraphState) (n : NodeData) : Nat × GraphState :=
  let (ref, st1) := construct st n
  add st1 ref

/-- `ExpressionGraph::clear` (`expression_graph.h:456-465`): reset the id
counter, drop both tapes and the root set, and clear the `Tensors` holder —
which frees the `tensors_` allocator (value and gradient buffers of
non-memoized non-parameter nodes) and the short-term cache, but not the
`cache_` allocator, the long-term cache, or anything owned by `params_`. -/
def clear (st : GraphState) : GraphState :=
  { st with count := 0, nodesForward := [], nodesBackward := [], topNodes := []
          , vals := [], grads := [], shortterm := [] }

/-- Which allocator a node's value buffer lives in: parameters are allocated
by `params_`, memoizable nodes by `cache_`, everything else by `tensors_`
(`Tensors::allocateForward`, `expression_graph.h:52-59`). -/
def getVal (st : GraphState) (ref : Nat) : Option Int :=
  let n := nodeAt st ref
  if n.type == "param" then alookup st.paramVals ref
  else if n.memoize then alookup st.cacheVals ref
  else alookup st.vals ref

def setVal (st : GraphState) (ref : Nat) (v : Int) : GraphState :=
  let n := nodeAt st ref
  if n.type == "param" then { st with paramVals := ainsert st.paramVals ref v }
  else if n.memoize then { st with cacheVals := ainsert st.cacheVals ref v }
  else { st with vals := ainsert st.vals ref v }

/-- `Node::free()`: release the value buffer back to its allocator.
Modelled from the spec for the parameter case: `free()` is "legal only for
non-parameter, already-consumed nodes" (§4.1) and parameters are
always-resident (§4.4), so freeing a parameter is a no-op. -/
def freeVal (st : GraphState) (ref : Nat) : GraphState :=
  let n := nodeAt st ref
  if n.type == "param" then st
  else if n.memoize then { st with cacheVals := aremove st.cacheVals ref }
  else { st with vals := aremove st.vals ref }

/-- Gradient buffers: parameters in the `params_` allocator, the rest in
`tensors_` (`Tensors::allocateBackward`, `expression_graph.h:61-64`). -/
def getGrad (st : GraphState) (ref : Nat) : Option Int :=
  if (nodeAt st ref).type == "param" then alookup st.paramGrads ref
  else alookup st.grads ref

def setGrad (st : GraphState) (ref : Nat) (g : Int) : GraphState :=
  if (nodeAt st ref).type == "param" then
    { st with paramGrads := ainsert st.paramGrads ref g }
  else { st with grads := ainsert st.grads ref g }

/-- Fatal-error taxonomy of the embedded operations. -/
inductive MarianError where
  | shapeMismatch : MarianError
  | reloadedNewParam : MarianError
  | nameTaken : MarianError
  | deallocatedChild : Nat → Nat → MarianError
  | multipleRoots : MarianError
  | nullGrad : Nat → MarianError
  | nullVal : Nat → MarianError
deriving DecidableEq

/-- Prefix a name with the active namespace (`expression_graph.h:300-302`). -/
def fullName (st : GraphState) (pname : String) : String :=
  if st.namespaceStr ≠ "" then st.namespaceStr ++ "::" ++ pname else pname

/-- `ExpressionGraph::get` (`expression_graph.h:394-402`): parameter lookup by
(namespace-prefixed) name. -/
def get (st : GraphState) (name : String) : Option Nat :=
  alookup st.paramsMap (fullName st name)

/-- `p->setTrainable(b)`: flips the trainable flag on the node object. -/
def setTrainable (st : GraphState) (ref : Nat) (b : Bool) : GraphState :=
  { st with arena := st.arena.set ref { nodeAt st ref with trainable := b } }

/-- Modelled from the spec: the `ParamNode` constructor (its class is not
under the studied sources).  Kind tag `"param"`, leaf operation writing the
initializer's value, no children, trainable unless fixed, excluded from
memoization; the hash (name-derived in the source) is passed in. -/
def mkParamNode (shape : List Nat) (init : Int) (fixed : Bool) (h : Nat) :
    NodeData :=
  { type := "param", op := Op.leaf init, shape := shape, children := []
  , trainable := !fixed, memoize := false, hash := h }

/-- `ExpressionGraph::param` (`expression_graph.h:295-336`).  An existing name
must match the stored shape (fatal otherwise); the stored node is re-added to
the tape and returned.  A fresh name is fatal if the graph was reloaded;
otherwise a `ParamNode` is constructed, registered, named and recorded. -/
def param (st : GraphState) (pname : String) (shape : List Nat) (init : Int)
    (fixed : Bool) (phash : Nat) : Except MarianError (Nat × GraphState) :=
  let name := fullName st pname
  match alookup st.paramsMap name with
  | some p =>
    if shape ≠ (nodeAt st p).shape then Except.error MarianError.shapeMismatch
    else
      let st1 := setTrainable st p !fixed
      let (_, st2) := add st1 p
      Except.ok (p, st2)
  | none =>
    if st.reloaded then Except.error MarianError.reloadedNewParam
    else if (get st name).isSome then Except.error MarianError.nameTaken
    else
      let (pref, st1) := expression st (mkParamNode shape init fixed phash)
      let st2 := { st1 with paramsMap := ainsert st1.paramsMap name pref }
      Except.ok (pref, st2)

/-- Node value as computed by `forward()` from the children's values.
Modelled from the spec for the operation vocabulary above: leaves keep the
value written by `init()`, `scale k` multiplies its child by `k`, `add2` and
`mul2` combine two children. -/
def opForward (op : Op) (args : List Int) (cur : Int) : Int :=
  match op with
  | Op.leaf _ => cur
  | Op.scale k => k * args.headD 0
  | Op.add2 =>
    match args with
    | [x, y] => x + y
    | _ => 0
  | Op.mul2 =>
    match args with
    | [x, y] => x * y
    | _ => 0

/-- `Node::allocate()`: idempotent value-buffer allocation (a fresh buffer is
modelled as holding 0 until written). -/
def allocate (st : GraphState) (ref : Nat) : GraphState :=
  match getVal st ref with
  | some _ => st
  | none => setVal st ref 0

/-- Modelled from the spec: `init()` runs the node initializer for leaf nodes
(constants/parameters), writing its deterministic value; non-leaf nodes have
no initializer. -/
def initNode (st : GraphState) (ref : Nat) : GraphState :=
  match (nodeAt st ref).op with
  | Op.leaf i => setVal st ref i
  | _ => st

/-- Collect the children's values, or report the first deallocated child
(the `ABORT_IF(!child->val(), ...)` loop in `expression_graph.cpp:119-120`). -/
def childVals (st : GraphState) (cs : List Nat) : Except Nat (List Int) :=
  match cs with
  | [] => Except.ok []
  | c :: rest =>
    match getVal st c with
    | none => Except.error c
    | some x =>
      match childVals st rest with
      | Except.error e => Except.error e
      | Except.ok xs => Except.ok (x :: xs)

/-- `v->children().clear()`. -/
def clearChildren (st : GraphState) (ref : Nat) : GraphState :=
  { st with arena := st.arena.set ref { nodeAt st ref with children := [] } }

/-- Free every buffer on a node's subtape (`expression_graph.cpp:155-163`). -/
def freeSubtape (st : GraphState) (ref : Nat) : GraphState :=
  match alookup st.subtapes ref with
  | some tape => tape.foldl freeVal st
  | none => st

/-- One iteration of `ExpressionGraph::forward`'s loop
(`expression_graph.cpp:109-167`): allocate, init, check children's buffers,
compute the value; in inference mode drop the child list; with checkpointing
on a non-final pass free the node's subtape buffers. -/
def forwardStep (st : GraphState) (finalPass : Bool) (v : Nat) :
    Except MarianError GraphState :=
  let st := allocate st v
  let st := initNode st v
  let n := nodeAt st v
  match childVals st n.children with
  | Except.error c => Except.error (MarianError.deallocatedChild c v)
  | Except.ok args =>
    let st := setVal st v (opForward n.op args ((getVal st v).getD 0))
    let st := if st.inferenceOnly then clearChildren st v else st
    let st := if st.checkpointing && !finalPass then freeSubtape st v else st
    Except.ok st

/-- `ExpressionGraph::forward(forwardTape, finalPass)`: consume the given tape
front to back.  The C++ empties the passed list destructively; callers of
this function update the corresponding state field accordingly. -/
def forwardTapeRun (st : GraphState) (tape : List Nat) (finalPass : Bool) :
    Except MarianError GraphState :=
  match tape with
  | [] => Except.ok st
  | v :: rest =>
    match forwardStep st finalPass v with
    | Except.error e => Except.error e
    | Except.ok st1 => forwardTapeRun st1 rest finalPass

def isCheckpoint (st : GraphState) (ref : Nat) : Bool :=
  st.checkpoints.contains ref

def markCheckpoint (st : GraphState) (ref : Nat) : GraphState :=
  { st with checkpoints := insertSet st.checkpoints ref }

/-- `createSubtape` (`expression_graph.cpp:50-73`): collect, post-order, the
non-checkpoint not-yet-visited descendants of a node into its subtape;
`splice` empties each child's subtape into the parent's.  The C++ recursion is
over an acyclic graph; here a fuel argument bounds the depth — callers pass
fuel exceeding the arena size, which suffices whenever children have smaller
refs than their parents (true of every node built through `construct`). -/
def createSubtape (fuel : Nat) (st : GraphState) (ref : Nat) : GraphState :=
  match fuel with
  | 0 => st
  | fuel' + 1 =>
    let n := nodeAt st ref
    let folded := n.children.foldl
      (fun (acc : GraphState × List Nat) child =>
        if isCheckpoint acc.1 child then acc
        else
          match alookup acc.1.subtapes child with
          | some _ => acc
          | none =>
            let st2 := createSubtape fuel' acc.1 child
            let ctape := (alookup st2.subtapes child).getD []
            ({ st2 with subtapes := ainsert st2.subtapes child [] }
            , acc.2 ++ ctape))
      (st, [])
    let tape :=
      if isCheckpoint folded.1 ref then folded.2 else folded.2 ++ [ref]
    { folded.1 with subtapes := ainsert folded.1.subtapes ref tape }

/-- The checkpoint-planning prefix of `ExpressionGraph::forwardNext`
(`expression_graph.cpp:80-102`): mark every root as a checkpoint, build
subtapes walking the backward tape in reverse, then turn the members of each
root's subtape into checkpoints and clear that subtape. -/
def planCheckpoints (st : GraphState) : GraphState :=
  let st1 := st.topNodes.foldl markCheckpoint st
  let st2 := st1.nodesBackward.reverse.foldl
    (fun s v =>
      if isCheckpoint s v then createSubtape (s.arena.length + 1) s v else s)
    st1
  st2.topNodes.foldl
    (fun s top =>
      match alookup s.subtapes top with
      | some tape =>
        let s1 := tape.foldl markCheckpoint s
        { s1 with subtapes := ainsert s1.subtapes top [] }
      | none => s)
    st2

/-- `ExpressionGraph::forwardNext` (`expression_graph.cpp:76-107`): clear the
short-term cache, plan checkpoints if enabled, then run the forward tape
(final pass exactly when checkpointing is off), emptying it. -/
def forwardNext (st : GraphState) : Except MarianError GraphState :=
  let st := { st with shortterm := [] }
  let st := if st.checkpointing then planCheckpoints st else st
  match forwardTapeRun st st.nodesForward (!st.checkpointing) with
  | Except.error e => Except.error e
  | Except.ok st1 => Except.ok { st1 with nodesForward := [] }

/-- Modelled from the spec: `params_->allocateForward()` allocates the value
buffer of every parameter and ensures its initializer has run before forward
use ("invoked once per node", §6; `Parameters` is not under the studied
sources); already-allocated parameters are left as they are. -/
def paramsAllocateForward (st : GraphState) : GraphState :=
  st.paramsMap.foldl
    (fun s kv =>
      match alookup s.paramVals kv.2 with
      | some _ => s
      | none =>
        let v0 :=
          match (nodeAt s kv.2).op with
          | Op.leaf i => i
          | _ => 0
        { s with paramVals := ainsert s.paramVals kv.2 v0 })
    st

/-- `ExpressionGraph::forward` (`expression_graph.h:217-220`). -/
def forward (st : GraphState) : Except MarianError GraphState :=
  forwardNext (paramsAllocateForward st)

/-- Events recorded while the backward pass runs, used to state ordering
properties: visiting a tape node, actually zero-initializing a gradient
buffer, and accumulating a contribution into a child's gradient. -/
inductive BEvent where
  | visit : Nat → BEvent
  | zeroed : Nat → BEvent
  | accum : Nat → Int → BEvent
deriving DecidableEq

/-- Modelled from the spec: `Node::set_zero_adjoint` zeroes a gradient buffer
"exactly once" — it allocates and zeroes when the buffer is absent and is a
no-op when it is already allocated (§4.5, §8; `node.h` is not under the
studied sources).  Returns whether a zero-initialization happened. -/
def set_zero_adjoint (st : GraphState) (ref : Nat) : GraphState × Bool :=
  match getGrad st ref with
  | some _ => (st, false)
  | none => (setGrad st ref 0, true)

/-- Modelled from the spec: `Parameters::allocateBackward` allocates every
parameter's gradient buffer (fresh buffers modelled as 0). -/
def paramsAllocateBackward (st : GraphState) : GraphState :=
  st.paramsMap.foldl
    (fun s kv =>
      match alookup s.paramGrads kv.2 with
      | some _ => s
      | none => { s with paramGrads := ainsert s.paramGrads kv.2 0 })
    st

/-- Modelled from the spec: `Parameters::set_zero_adjoint` zeroes the whole
parameter-gradient storage. -/
def paramsSetZeroAdjoint (st : GraphState) : GraphState × List BEvent :=
  st.paramsMap.foldl
    (fun acc kv =>
      ({ acc.1 with paramGrads := ainsert acc.1.paramGrads kv.2 0 }
      , acc.2 ++ [BEvent.zeroed kv.2]))
    (st, [])

/-- Modelled from the spec: `init_dependent` seeds a root's gradient with 1
when it has none (§4.5 "Seed root gradients"). -/
def init_dependent (st : GraphState) (ref : Nat) : GraphState :=
  match getGrad st ref with
  | some _ => st
  | none => setGrad st ref 1

/-- Modelled from the spec: the per-kind `backward()` body "accumulates
gradient contributions into each child's gradient buffer from this node's own
gradient and value — fails if the node's own gradient buffer is null" (§4.1).
For the vocabulary above: `scale k` contributes `k * grad`, `add2` passes the
gradient through, `mul2` contributes `grad * value-of-the-other-child`
(reading the sibling's value buffer). -/
def contributions (st : GraphState) (v : Nat) :
    Except MarianError (List (Nat × Int)) :=
  let n := nodeAt st v
  match getGrad st v with
  | none => Except.error (MarianError.nullGrad v)
  | some g =>
    match n.op with
    | Op.leaf _ => Except.ok []
    | Op.scale k => Except.ok (n.children.map (fun c => (c, k * g)))
    | Op.add2 => Except.ok (n.children.map (fun c => (c, g)))
    | Op.mul2 =>
      match n.children with
      | [c0, c1] =>
        match getVal st c0, getVal st c1 with
        | some x0, some x1 => Except.ok [(c0, g * x1), (c1, g * x0)]
        | _, _ => Except.error (MarianError.nullVal v)
      | _ => Except.ok []

/-- Deliver a list of contributions into the (already allocated) gradient
buffers of trainable children; accumulation into an unallocated buffer is a
fault. -/
def accumulate (st : GraphState) (contribs : List (Nat × Int)) :
    Except MarianError (GraphState × List BEvent) :=
  match contribs with
  | [] => Except.ok (st, [])
  | (c, amt) :: rest =>
    if (nodeAt st c).trainable then
      match getGrad st c with
      | none => Except.error (MarianError.nullGrad c)
      | some g =>
        match accumulate (setGrad st c (g + amt)) rest with
        | Except.error e => Except.error e
        | Except.ok (st1, evs) => Except.ok (st1, BEvent.accum c amt :: evs)
    else accumulate st rest

/-- `v->backward()` for one node. -/
def nodeBackward (st : GraphState) (v : Nat) :
    Except MarianError (GraphState × List BEvent) :=
  match contributions st v with
  | Except.error e => Except.error e
  | Except.ok contribs => accumulate st contribs

/-- One iteration of the backward loop (`expression_graph.cpp:197-248`):
zero each trainable non-parameter child's gradient buffer, replay the node's
subtape as a final forward pass when checkpointing, run the node's
`backward()` if it is trainable, and drop its child list. -/
def backwardStep (st : GraphState) (v : Nat) :
    Except MarianError (GraphState × List BEvent) :=
  let n := nodeAt st v
  let zeroed := n.children.foldl
    (fun (acc : GraphState × List BEvent) c =>
      if (nodeAt acc.1 c).trainable && (nodeAt acc.1 c).type != "param" then
        let z := set_zero_adjoint acc.1 c
        (z.1, acc.2 ++ if z.2 then [BEvent.zeroed c] else [])
      else acc)
    (st, [])
  let replayed :=
    if zeroed.1.checkpointing then
      match alookup zeroed.1.subtapes v with
      | some tape =>
        match forwardTapeRun zeroed.1 tape true with
        | Except.error e => Except.error e
        | Except.ok st1 =>
          Except.ok { st1 with subtapes := ainsert st1.subtapes v [] }
      | none => Except.ok zeroed.1
    else Except.ok zeroed.1
  match replayed with
  | Except.error e => Except.error e
  | Except.ok st2 =>
    let afterBack :=
      if n.trainable then nodeBackward st2 v
      else Except.ok (st2, [])
    match afterBack with
    | Except.error e => Except.error e
    | Except.ok (st3, evs) =>
      Except.ok (clearChildren st3 v, zeroed.2 ++ evs)

/-- The backward loop, consuming the (already reversed) backward tape from
the front — the C++ pops `nodesBackward_` from the back. -/
def backwardConsume (st : GraphState) (rev : List Nat) :
    Except MarianError (GraphState × List BEvent) :=
  match rev with
  | [] => Except.ok (st, [])
  | v :: rest =>
    match backwardStep st v with
    | Except.error e => Except.error e
    | Except.ok (st1, evs) =>
      match backwardConsume st1 rest with
      | Except.error e => Except.error e
      | Except.ok (st2, evs2) =>
        Except.ok (st2, BEvent.visit v :: evs ++ evs2)

/-- `ExpressionGraph::backward` (`expression_graph.cpp:169-249`): fatal when
more than one root remains; allocate parameter gradients, zero them when
requested, seed the roots, clear the root set and the short-term cache, then
consume the backward tape back to front. -/
def backward (st : GraphState) (zero : Bool) :
    Except MarianError (GraphState × List BEvent) :=
  if st.topNodes.length > 1 then Except.error MarianError.multipleRoots
  else
    let st1 := paramsAllocateBackward st
    let zeroedP :=
      if zero then paramsSetZeroAdjoint st1 else (st1, [])
    let st2 := zeroedP.1.topNodes.foldl init_dependent zeroedP.1
    let st3 := { st2 with topNodes := [], shortterm := [] }
    let tape := st3.nodesBackward.reverse
    match backwardConsume { st3 with nodesBackward := [] } tape with
    | Except.error e => Except.error e
    | Except.ok (st4, evs) => Except.ok (st4, zeroedP.2 ++ evs)

/-- `ExpressionGraph::backprop` (`expression_graph.h:200-203`). -/
def backprop (st : GraphState) :
    Except MarianError (GraphState × List BEvent) :=
  match forward st with
  | Except.error e => Except.error e
  | Except.ok st1 => backward st1 true

/-! ### Capacity probing (`ExpressionGraph::fits`)

The workspace `TensorAllocator` is not under the studied sources; its
budget/probing behaviour is modelled from the spec (§5, §6): it holds a
reserved budget, and in probing mode an allocation demand beyond the budget is
signalled as a recoverable `AllocationException` instead of growing the
reservation. -/

/-- Modelled from the spec: the workspace allocator's observable state — its
reserved budget and the throw-at-reallocation probing flag. -/
structure AllocatorState where
  reserved : Nat
  throwAtRealloc : Bool
deriving DecidableEq

/-- `TensorAllocator::throwAtReallocation` (toggled in
`expression_graph.h:48-50` and `207,209,211`). -/
def throwAtReallocation (st : AllocatorState) (b : Bool) : AllocatorState :=
  { st with throwAtRealloc := b }

/-- `reserveWorkspaceMB` / `Tensors::reserve`: set the budget. -/
def reserve (st : AllocatorState) (bytes : Nat) : AllocatorState :=
  { st with reserved := bytes }

/-- Modelled from the spec: a full `backprop()` as seen by the allocator — it
demands `required` bytes of workspace; in probing mode a demand beyond the
reservation raises `AllocationException` (carrying the allocator state at the
throw point), otherwise the allocator satisfies it. -/
def backpropAlloc (required : Nat) (st : AllocatorState) :
    Except AllocatorState AllocatorState :=
  if st.throwAtRealloc && decide (st.reserved < required) then Except.error st
  else Except.ok st

/-- `ExpressionGraph::fits` (`expression_graph.h:205-215`): switch the
allocator into probing mode, run `backprop`, and reset the mode on both the
success path and the catch path; report whether the run fit the budget. -/
def fits (required : Nat) (st : AllocatorState) : Bool × AllocatorState :=
  match backpropAlloc required (throwAtReallocation st true) with
  | Except.ok st1 => (true, throwAtReallocation st1 false)
  | Except.error st1 => (false, throwAtReallocation st1 false)

/-! ### Helpers for stating the claims -/

/-- Whether an `Except` computation succeeded. -/
def exceptOk {ε α : Type} : Except ε α → Bool
  | Except.ok _ => true
  | Except.error _ => false

/-- The sequence of tape nodes visited by a backward run, in order. -/
def visitsOf (evs : List BEvent) : List Nat :=
  evs.filterMap (fun e =>
    match e with
    | BEvent.visit v => some v
    | _ => none)

def isZeroedOf (r : Nat) : BEvent → Bool
  | BEvent.zeroed c => c == r
  | _ => false

def isAccumOf (r : Nat) : BEvent → Bool
  | BEvent.accum c _ => c == r
  | _ => false

/-- The forward tape is topologically ordered: every node on it appears after
all of its children that are on it. -/
def ForwardOrdered (st : GraphState) : Prop :=
  ∀ j rj, st.nodesForward.get? j = some rj →
    ∀ c ∈ (nodeAt st rj).children,
      ∃ i, i < j ∧ st.nodesForward.get? i = some c

/-- The tape invariants maintained by registration: the backward tape is an
order-preserving subsequence of the forward tape, every tape entry points
into the arena, and the forward tape is topologically ordered. -/
def TapeInv (st : GraphState) : Prop :=
  st.nodesBackward.Sublist st.nodesForward ∧
  (∀ r ∈ st.nodesForward, r < st.arena.length) ∧
  ForwardOrdered st

/-- Run a whole build cycle: construct and register each node in turn. -/
def buildAll (st : GraphState) : List NodeData → GraphState
  | [] => st
  | n :: rest => buildAll (expression st n).2 rest

/-- All children of a node to be registered are already on the forward tape
(the API guarantee that children are existing graph expressions). -/
def childrenRegistered (st : GraphState) (n : NodeData) : Bool :=
  n.children.all (fun c => st.nodesForward.contains c)

/-- A build sequence is valid when every node's children are already
registered at its construction time. -/
def validBuild (st : GraphState) : List NodeData → Bool
  | [] => true
  | n :: rest => childrenRegistered st n && validBuild (expression st n).2 rest

/-! ### Concrete scenarios used by witnesses and counterexamples -/

/-- A trainable leaf consumed by two distinct parents. -/
def c1Child : NodeData :=
  { type := "tanh", op := Op.leaf 0, shape := [1], children := []
  , trainable := true, memoize := false, hash := 1 }

/-- First parent of the shared leaf: contributes `a` per unit of gradient. -/
def c1Parent1 (a : Int) : NodeData :=
  { type := "scale1", op := Op.scale a, shape := [1], children := [0]
  , trainable := true, memoize := false, hash := 2 }

/-- Second parent of the shared leaf: contributes `b` per unit of gradient. -/
def c1Parent2 (b : Int) : NodeData :=
  { type := "scale2", op := Op.scale b, shape := [1], children := [0]
  , trainable := true, memoize := false, hash := 3 }

/-- Root consuming both parents. -/
def c1Root : NodeData :=
  { type := "plus", op := Op.add2, shape := [1], children := [1, 2]
  , trainable := true, memoize := false, hash := 4 }

/-- Graph in which node 0 (the leaf) is consumed by parents 1 and 2, whose
contributions are `a` and `b`; node 3 is the single root. -/
def c1State (a b : Int) : GraphState :=
  buildAll (initialGraph false false)
    [c1Child, c1Parent1 a, c1Parent2 b, c1Root]

/-- A memoizable constant node. -/
def c2n1 : NodeData :=
  { type := "cos", op := Op.scale 2, shape := [1], children := []
  , trainable := false, memoize := true, hash := 7 }

/-- A structurally different memoizable node carrying the same hash as
`c2n1` (a structural-hash collision). -/
def c2n2 : NodeData :=
  { type := "sin", op := Op.scale 3, shape := [2], children := []
  , trainable := false, memoize := true, hash := 7 }

/-- The graph after registering `c2n1` (it gets ref 0). -/
def c2st1 : GraphState := (expression (initialGraph false false) c2n1).2

/-- An ordinary node used by the cache-hit frame witness. -/
def c10n : NodeData :=
  { type := "relu", op := Op.scale 2, shape := [3], children := []
  , trainable := true, memoize := false, hash := 11 }

/-- The graph holding one registered copy of `c10n` (ref 0) and a second,
constructed-but-unregistered copy (ref 1). -/
def c10st2 : GraphState :=
  (construct (expression (initialGraph false false) c10n).2 c10n).2

/-- The prefix of `backward` before the tape loop: allocate and (optionally)
zero the parameter gradients, seed the roots, clear the root set and the
short-term cache.  Used to decompose `backward` for stepwise evaluation. -/
def backwardPre (st : GraphState) (zero : Bool) : GraphState × List BEvent :=
  let st1 := paramsAllocateBackward st
  let zeroedP := if zero then paramsSetZeroAdjoint st1 else (st1, [])
  let st2 := zeroedP.1.topNodes.foldl init_dependent zeroedP.1
  ({ st2 with topNodes := [], shortterm := [] }, zeroedP.2)

/-- Prepend the parameter-zeroing events to a backward-loop result. -/
def exceptAssemble (evs0 : List BEvent)
    (r : Except MarianError (GraphState × List BEvent)) :
    Except MarianError (GraphState × List BEvent) :=
  match r with
  | Except.error e => Except.error e
  | Except.ok (st4, evs) => Except.ok (st4, evs0 ++ evs)

/-- The arena of the C1 graph; the children lists of nodes 3, 2, 1 are
parameters because the backward loop clears them one by one. -/
def c1Arena (a b : Int) (ch3 ch2 ch1 : List Nat) : List NodeData :=
  [ { type := "tanh", op := Op.leaf 0, shape := [1], children := []
    , trainable := true, memoize := false, hash := 1 }
  , { type := "scale1", op := Op.scale a, shape := [1], children := ch1
    , trainable := true, memoize := false, hash := 2 }
  , { type := "scale2", op := Op.scale b, shape := [1], children := ch2
    , trainable := true, memoize := false, hash := 3 }
  , { type := "plus", op := Op.add2, shape := [1], children := ch3
    , trainable := true, memoize := false, hash := 4 } ]

/-- The C1 graph after registering the leaf. -/
def c1S1 : GraphState :=
  { arena :=
      [ { type := "tanh", op := Op.leaf 0, shape := [1], children := []
        , trainable := true, memoize := false, hash := 1 } ]
  , count := 1, ids := [(0, 0)]
  , nodesForward := [0], nodesBackward := [0], topNodes := [0]
  , shortterm := [(1, [0])], longterm := []
  , paramsMap := [], vals := [], cacheVals := [], paramVals := []
  , grads := [], paramGrads := [], subtapes := [], checkpoints := []
  , inferenceOnly := false, checkpointing := false, reloaded := false
  , namespaceStr := "" }

/-- The C1 graph after registering the first parent. -/
def c1S2 (a : Int) : GraphState :=
  { arena :=
      [ { type := "tanh", op := Op.leaf 0, shape := [1], children := []
        , trainable := true, memoize := false, hash := 1 }
      , { type := "scale1", op := Op.scale a, shape := [1], children := [0]
        , trainable := true, memoize := false, hash := 2 } ]
  , count := 2, ids := [(1, 1), (0, 0)]
  , nodesForward := [0, 1], nodesBackward := [0, 1], topNodes := [1]
  , shortterm := [(2, [1]), (1, [0])], longterm := []
  , paramsMap := [], vals := [], cacheVals := [], paramVals := []
  , grads := [], paramGrads := [], subtapes := [], checkpoints := []
  , inferenceOnly := false, checkpointing := false, reloaded := false
  , namespaceStr := "" }

/-- The C1 graph after registering the second parent. -/
def c1S3 (a b : Int) : GraphState :=
  { arena :=
      [ { type := "tanh", op := Op.leaf 0, shape := [1], children := []
        , trainable := true, memoize := false, hash := 1 }
      , { type := "scale1", op := Op.scale a, shape := [1], children := [0]
        , trainable := true, memoize := false, hash := 2 }
      , { type := "scale2", op := Op.scale b, shape := [1], children := [0]
        , trainable := true, memoize := false, hash := 3 } ]
  , count := 3, ids := [(2, 2), (1, 1), (0, 0)]
  , nodesForward := [0, 1, 2], nodesBackward := [0, 1, 2], topNodes := [1, 2]
  , shortterm := [(3, [2]), (2, [1]), (1, [0])], longterm := []
  , paramsMap := [], vals := [], cacheVals := [], paramVals := []
  , grads := [], paramGrads := [], subtapes := [], checkpoints := []
  , inferenceOnly := false, checkpointing := false, reloaded := false
  , namespaceStr := "" }

/-- The fully built C1 graph (`c1State` written out). -/
def c1S4 (a b : Int) : GraphState :=
  { arena := c1Arena a b [1, 2] [0] [0]
  , count := 4, ids := [(3, 3), (2, 2), (1, 1), (0, 0)]
  , nodesForward := [0, 1, 2, 3], nodesBackward := [0, 1, 2, 3]
  , topNodes := [3]
  , shortterm := [(4, [3]), (3, [2]), (2, [1]), (1, [0])], longterm := []
  , paramsMap := [], vals := [], cacheVals := [], paramVals := []
  , grads := [], paramGrads := [], subtapes := [], checkpoints := []
  , inferenceOnly := false, checkpointing := false, reloaded := false
  , namespaceStr := "" }

/-- States visited by the backward loop of the C1 scenario: the remaining
backward tape, the three parents' (progressively cleared) child lists, and
the gradient map. -/
def c1Back (a b : Int) (tape : List Nat) (ch3 ch2 ch1 : List Nat)
    (gs : List (Nat × Int)) : GraphState :=
  { arena := c1Arena a b ch3 ch2 ch1
  , count := 4, ids := [(3, 3), (2, 2), (1, 1), (0, 0)]
  , nodesForward := [0, 1, 2, 3], nodesBackward := tape
  , topNodes := [], shortterm := [], longterm := []
  , paramsMap := [], vals := [], cacheVals := [], paramVals := []
  , grads := gs, paramGrads := [], subtapes := [], checkpoints := []
  , inferenceOnly := false, checkpointing := false, reloaded := false
  , namespaceStr := "" }

/-- The gradient map at the end of the C1 backward run. -/
def c1GradsFinal (a b : Int) : List (Nat × Int) :=
  [(0, 0 + b * (0 + 1) + a * (0 + 1)), (2, 0 + 1), (1, 0 + 1), (3, 1)]

/-- The event trace of the C1 backward run. -/
def c1Evs (a b : Int) : List BEvent :=
  [ BEvent.visit 3, BEvent.zeroed 1, BEvent.zeroed 2
  , BEvent.accum 1 1, BEvent.accum 2 1
  , BEvent.visit 2, BEvent.zeroed 0, BEvent.accum 0 (b * (0 + 1))
  , BEvent.visit 1, BEvent.accum 0 (a * (0 + 1))
  , BEvent.visit 0 ]

/-- A graph holding one parameter `"W"` with computed value 5 (after one
forward pass). -/
def c7st : GraphState :=
  match param (initialGraph false false) "W" [2] 5 false 9 with
  | Except.ok r =>
    match forward r.2 with
    | Except.ok st2 => st2
    | Except.error _ => initialGraph false false
  | Except.error _ => initialGraph false false

/-- A two-node chain (leaf consumed by one parent) used by the C6 witness. -/
def c6B : GraphState :=
  buildAll (initialGraph false false) [c1Child, c1Parent1 2]

/-- The final state of the backward run over `c6B`. -/
def c6StF : GraphState :=
  match backward c6B true with
  | Except.ok r => r.1
  | Except.error _ => initialGraph false false

/-- The event trace of the backward run over `c6B`. -/
def c6Evs : List BEvent :=
  match backward c6B true with
  | Except.ok r => r.2
  | Except.error _ => []

/-- Two independent trainable leaves: two roots remain. -/
def c3TwoRoots : GraphState :=
  buildAll (initialGraph false false)
    [ { type := "tanh", op := Op.leaf 1, shape := [1], children := []
      , trainable := true, memoize := false, hash := 1 }
    , { type := "relu", op := Op.leaf 2, shape := [1], children := []
      , trainable := true, memoize := false, hash := 2 } ]

/-! ### Definitions for the checkpointing-equivalence analysis (C5) -/

/-- Two runs agree wherever both have a live value buffer. -/
def valsAgree (stA stB : GraphState) : Prop :=
  ∀ r x y, getVal stA r = some x → getVal stB r = some y → x = y

/-- The value `forward()` deterministically assigns to a node from its
children's values. -/
def valueOf (n : NodeData) (args : List Int) : Int :=
  match n.op with
  | Op.leaf i => i
  | op => opForward op args 0

/-- The value a node ought to hold given the (original) arena and the current
buffers: its operation applied to its children's current values. -/
def expectedVal (arena : List NodeData) (st : GraphState) (r : Nat) :
    Option Int :=
  let n := (arena.get? r).getD default
  match childVals st n.children with
  | Except.ok args => some (valueOf n args)
  | Except.error _ => none

/-- Every live buffer holds its node's recomputable value. -/
def ValsConsistent (arena : List NodeData) (st : GraphState) : Prop :=
  ∀ r x, getVal st r = some x → expectedVal arena st r = some x

/-- Children always have smaller refs than their parent (true of every node
built through `construct`, whose children must already exist). -/
def ChildrenLt (arena : List NodeData) : Prop :=
  ∀ r : Nat, ∀ c ∈ ((arena.get? r).getD default).children, c < r

def childrenLtB (arena : List NodeData) : Bool :=
  (List.range arena.length).all
    (fun r => ((arena.get? r).getD default).children.all (fun c => c < r))

/-- Strictly ascending list of refs. -/
def ascB : List Nat → Bool
  | [] => true
  | [_] => true
  | a :: b :: t => decide (a < b) && ascB (b :: t)

/-- The fields a value-buffer operation can never change. -/
def ctrlOf (st : GraphState) : List NodeData × List (Nat × Int) ×
    List (Nat × Int) × List (Nat × List Nat) × List Nat ×
    List Nat × List Nat × List Nat × List (String × Nat) × Bool × Bool :=
  (st.arena, st.grads, st.paramGrads, st.subtapes, st.checkpoints,
   st.nodesForward, st.nodesBackward, st.topNodes, st.paramsMap,
   st.inferenceOnly, st.checkpointing)

/-- The fields the checkpoint planner never changes. -/
def coreOf (st : GraphState) : List NodeData × List (Nat × Int) ×
    List (Nat × Int) × List (Nat × Int) × List (Nat × Int) ×
    List (Nat × Int) × List Nat × List Nat × List Nat ×
    List (String × Nat) × Bool × Bool :=
  (st.arena, st.vals, st.cacheVals, st.paramVals, st.grads, st.paramGrads,
   st.nodesForward, st.nodesBackward, st.topNodes, st.paramsMap,
   st.inferenceOnly, st.checkpointing)

/-- Every subtape entry only holds refs at or below its key. -/
def SubtapeBound (st : GraphState) : Prop :=
  ∀ v l, alookup st.subtapes v = some l → ∀ x ∈ l, x ≤ v

/-- Everything a backward-pass gradient write leaves untouched. -/
def nonGradOf (st : GraphState) : List NodeData × List (Nat × Int) ×
    List (Nat × Int) × List (Nat × Int) × List (Nat × List Nat) ×
    List Nat × Bool × Bool :=
  (st.arena, st.vals, st.cacheVals, st.paramVals, st.subtapes,
   st.checkpoints, st.inferenceOnly, st.checkpointing)

/-- What a gradient read/write depends on. -/
def gradCtx (st : GraphState) : List NodeData × List (Nat × Int) ×
    List (Nat × Int) :=
  (st.arena, st.grads, st.paramGrads)

/-- Decidable well-formedness of the parameter registry: every registered
parameter ref points at a childless leaf node (what `param` creates). -/
def paramsWfB (st : GraphState) : Bool :=
  st.paramsMap.all (fun kv =>
    match (nodeAt st kv.2).op with
    | Op.leaf _ => (nodeAt st kv.2).children.isEmpty
    | _ => false)

/-- Everything `params_->allocateForward()` leaves untouched. -/
def pafFrame (st : GraphState) : List NodeData × List (Nat × Int) ×
    List (Nat × Int) × List (Nat × Int) × List (Nat × Int) ×
    List (Nat × List Nat) × List Nat × List Nat × List Nat × List Nat ×
    List (String × Nat) × Bool × Bool :=
  (st.arena, st.vals, st.cacheVals, st.grads, st.paramGrads, st.subtapes,
   st.checkpoints, st.nodesForward, st.nodesBackward, st.topNodes,
   st.paramsMap, st.inferenceOnly, st.checkpointing)

/-- C5 witness graph: parameter `w = 3` (ref 0), `scale 2` (ref 1), `mul2`
over `[1, 1]` (ref 2, user-marked as a checkpoint), root `scale 7`
(ref 3). -/
def c5G : GraphState :=
  match param (initialGraph false false) "w" [1] 3 false 7 with
  | Except.ok pg =>
    let g2 := (expression pg.2
      ⟨"op", Op.scale 2, [1], [0], true, false, 11⟩).2
    let g3 := (expression g2
      ⟨"op", Op.mul2, [1], [1, 1], true, false, 12⟩).2
    let g4 := markCheckpoint g3 2
    (expression g4 ⟨"op", Op.scale 7, [1], [2], true, false, 13⟩).2
  | Except.error _ => initialGraph false false

/-- The successful result of `backprop` on the witness graph without
checkpointing. -/
def c5resA : GraphState × List BEvent :=
  match backprop c5G with
  | Except.ok p => p
  | Except.error _ => (initialGraph false false, [])

/-- The successful result of `backprop` on the witness graph with
checkpointing enabled. -/
def c5resB : GraphState × List BEvent :=
  match backprop { c5G with checkpointing := true } with
  | Except.ok p => p
  | Except.error _ => (initialGraph false false, [])

end Marian

namespace Marian

/-! ### Supporting lemmas -/

theorem shorttermFind_equal (st : GraphState) (n : NodeData) (h found : Nat)
    (hf : shorttermFind st n h = some found) :
    n.equal (nodeAt st found) = true := by
  unfold shorttermFind at hf
  split at hf
  · exact absurd hf (by simp)
  · have h2 := List.find?_some hf
    exact h2

/-- A cache hit leaves the registration state (id counter, tapes, root set,
arena) untouched: `findOrRemember` only ever modifies the two caches. -/
theorem findOrRemember_some_frame (st : GraphState) (ref found : Nat)
    (st' : GraphState) (h : findOrRemember st ref = (some found, st')) :
    st'.count = st.count ∧ st'.nodesForward = st.nodesForward ∧
    st'.nodesBackward = st.nodesBackward ∧ st'.topNodes = st.topNodes ∧
    st'.arena = st.arena := by
  unfold findOrRemember at h
  dsimp only at h
  split at h
  · split at h
    · injection h with h1 h2
      subst h2
      exact ⟨rfl, rfl, rfl, rfl, rfl⟩
    · split at h
      · injection h with h1 h2
        subst h2
        exact ⟨rfl, rfl, rfl, rfl, rfl⟩
      · injection h with h1 h2
        exact absurd h1 (by simp)
  · split at h
    · injection h with h1 h2
      subst h2
      exact ⟨rfl, rfl, rfl, rfl, rfl⟩
    · injection h with h1 h2
      exact absurd h1 (by simp)

/-! ### Claim theorems -/

/-- C10: when `add(node)` finds an existing equal node in the memoization
cache, it returns that node and leaves the graph's registration state
unchanged — the id counter is not incremented, nothing is appended to the
forward or backward tape, and the root set is not modified. -/
theorem add_cacheHit_frame (st : GraphState) (ref found : Nat)
    (st' : GraphState) (h : findOrRemember st ref = (some found, st')) :
    add st ref = (found, st') ∧ st'.count = st.count ∧
    st'.nodesForward = st.nodesForward ∧
    st'.nodesBackward = st.nodesBackward ∧ st'.topNodes = st.topNodes := by
  have frame := findOrRemember_some_frame st ref found st' h
  refine ⟨?_, frame.1, frame.2.1, frame.2.2.1, frame.2.2.2.1⟩
  unfold add
  rw [h]

theorem add_cacheHit_frame_witness :
    add c10st2 1 = (0, c10st2) ∧ c10st2.count = c10st2.count ∧
    c10st2.nodesForward = c10st2.nodesForward ∧
    c10st2.nodesBackward = c10st2.nodesBackward ∧
    c10st2.topNodes = c10st2.topNodes :=
  add_cacheHit_frame c10st2 1 0 c10st2 (by decide)

/-- C2 as stated is false: `c2n2` differs structurally from the cached `c2n1`
(different kind and shape) yet collides on the hash, and the long-term cache
lookup returns the cached node on hash equality alone, deduplicating the two
into one. -/
theorem longterm_hashOnly_counterexample :
    NodeData.equal c2n2 (nodeAt (construct c2st1 c2n2).2 0) = false ∧
    (findOrRemember (construct c2st1 c2n2).2 1).1 = some 0 ∧
    (add (construct c2st1 c2n2).2 1).1 = 0 := by decide

/-- C2 (amended): a lookup hit is either a short-term hit, which does require
deep structural equality with the query node, or a long-term hit, which
accepts the first entry of the hash bucket on hash equality alone (the
`equal()` check on this path is commented out in the source). -/
theorem lookup_policy (st : GraphState) (ref found : Nat) (st' : GraphState)
    (h : findOrRemember st ref = (some found, st')) :
    (nodeAt st ref).equal (nodeAt st found) = true ∨
    (((nodeAt st ref).type != "param" && (nodeAt st ref).memoize) = true ∧
      ∃ rest, alookup st.longterm (nodeAt st ref).hash = some (found :: rest))
    := by
  unfold findOrRemember at h
  dsimp only at h
  split at h
  next hcond =>
    split at h
    next hl =>
      injection h with h1 h2
      injection h1 with h1
      subst h1
      exact Or.inr ⟨hcond, _, hl⟩
    next hl =>
      split at h
      next hf =>
        injection h with h1 h2
        injection h1 with h1
        subst h1
        exact Or.inl (shorttermFind_equal _ _ _ _ hf)
      · injection h with h1 h2
        exact absurd h1 (by simp)
  · split at h
    next hf =>
      injection h with h1 h2
      injection h1 with h1
      subst h1
      exact Or.inl (shorttermFind_equal _ _ _ _ hf)
    · injection h with h1 h2
      exact absurd h1 (by simp)

theorem lookup_policy_witness :
    c10n.equal (nodeAt c10st2 0) = true ∨
    ((c10n.type != "param" && c10n.memoize) = true ∧
      ∃ rest, alookup c10st2.longterm c10n.hash = some (0 :: rest)) := by
  have h := lookup_policy c10st2 1 0 c10st2 (by decide)
  exact h

theorem forwardStep_error_shape (st : GraphState) (fp : Bool) (v : Nat)
    (e : MarianError) (h : forwardStep st fp v = Except.error e) :
    ∃ c, e = MarianError.deallocatedChild c v := by
  unfold forwardStep at h
  dsimp only at h
  split at h
  · injection h with h1
    exact ⟨_, h1.symm⟩
  · exact Except.noConfusion h

theorem forwardTapeRun_error_ne (st : GraphState) (tape : List Nat)
    (fp : Bool) (e : MarianError) (h : forwardTapeRun st tape fp = Except.error e) :
    e ≠ MarianError.multipleRoots := by
  induction tape generalizing st with
  | nil => exact Except.noConfusion h
  | cons v rest ih =>
    unfold forwardTapeRun at h
    split at h
    next heq =>
      injection h with h1
      subst h1
      obtain ⟨c, hc⟩ := forwardStep_error_shape _ _ _ _ heq
      subst hc
      intro hcontra
      exact MarianError.noConfusion hcontra
    next st1 heq => exact ih st1 h

theorem contributions_error_ne (st : GraphState) (v : Nat) (e : MarianError)
    (h : contributions st v = Except.error e) :
    e ≠ MarianError.multipleRoots := by
  unfold contributions at h
  dsimp only at h
  split at h
  · injection h with h1
    subst h1
    intro hc
    exact MarianError.noConfusion hc
  · split at h
    · exact Except.noConfusion h
    · exact Except.noConfusion h
    · exact Except.noConfusion h
    · split at h
      · split at h
        · exact Except.noConfusion h
        · injection h with h1
          subst h1
          intro hc
          exact MarianError.noConfusion hc
      · exact Except.noConfusion h

theorem accumulate_error_ne (st : GraphState) (l : List (Nat × Int))
    (e : MarianError) (h : accumulate st l = Except.error e) :
    e ≠ MarianError.multipleRoots := by
  induction l generalizing st with
  | nil => exact Except.noConfusion h
  | cons kv rest ih =>
    unfold accumulate at h
    split at h
    · split at h
      · injection h with h1
        subst h1
        intro hc
        exact MarianError.noConfusion hc
      · split at h
        next heq =>
          injection h with h1
          subst h1
          exact ih _ heq
        · exact Except.noConfusion h
    · exact ih _ h

theorem nodeBackward_error_ne (st : GraphState) (v : Nat) (e : MarianError)
    (h : nodeBackward st v = Except.error e) :
    e ≠ MarianError.multipleRoots := by
  unfold nodeBackward at h
  split at h
  next heq =>
    injection h with h1
    subst h1
    exact contributions_error_ne _ _ _ heq
  next heq => exact accumulate_error_ne _ _ _ h

theorem backwardStep_error_ne (st : GraphState) (v : Nat) (e : MarianError)
    (h : backwardStep st v = Except.error e) :
    e ≠ MarianError.multipleRoots := by
  unfold backwardStep at h
  dsimp only at h
  split at h
  next heq =>
    -- the replay produced the error
    injection h with h1
    subst h1
    split at heq
    · split at heq
      · split at heq
        next heq2 =>
          injection heq with h2
          subst h2
          exact forwardTapeRun_error_ne _ _ _ _ heq2
        · exact Except.noConfusion heq
      · exact Except.noConfusion heq
    · exact Except.noConfusion heq
  next st2 heq =>
    split at h
    next heq2 =>
      injection h with h1
      subst h1
      split at heq2
      · exact nodeBackward_error_ne _ _ _ heq2
      · exact Except.noConfusion heq2
    next heq2 => exact Except.noConfusion h

theorem backwardConsume_error_ne (st : GraphState) (rev : List Nat)
    (e : MarianError) (h : backwardConsume st rev = Except.error e) :
    e ≠ MarianError.multipleRoots := by
  induction rev generalizing st with
  | nil => exact Except.noConfusion h
  | cons v rest ih =>
    unfold backwardConsume at h
    split at h
    next heq =>
      injection h with h1
      subst h1
      exact backwardStep_error_ne _ _ _ heq
    next heq =>
      split at h
      next heq2 =>
        injection h with h1
        subst h1
        exact ih _ heq2
      · exact Except.noConfusion h

/-- C3 (amended): `backward()` fails fatally — before touching any gradient
buffer — exactly when the root set holds *more than one* node; with one root
or none it proceeds past the root check (it can never fail with the
multiple-roots fault). -/
theorem backward_root_check (st : GraphState) (zero : Bool) :
    (st.topNodes.length > 1 →
      backward st zero = Except.error MarianError.multipleRoots) ∧
    (st.topNodes.length ≤ 1 →
      backward st zero ≠ Except.error MarianError.multipleRoots) := by
  constructor
  · intro hgt
    unfold backward
    rw [if_pos hgt]
  · intro hle
    unfold backward
    rw [if_neg (by omega)]
    dsimp only
    split
    next heq =>
      intro hc
      injection hc with h1
      subst h1
      exact backwardConsume_error_ne _ _ _ heq rfl
    next heq =>
      intro hc
      exact Except.noConfusion hc

/-- C3's claimed precondition "exactly one root" is not what the code checks:
on the empty graph the root set is empty (not exactly one root), yet
`backward` proceeds and completes without a fatal error. -/
theorem backward_zeroRoots_counterexample :
    (initialGraph false false).topNodes.length ≠ 1 ∧
    exceptOk (backward (initialGraph false false) true) = true := by decide

theorem backward_root_check_witness :
    c3TwoRoots.topNodes.length > 1 ∧
    backward c3TwoRoots true = Except.error MarianError.multipleRoots :=
  ⟨by decide, (backward_root_check c3TwoRoots true).1 (by decide)⟩

theorem equal_refl (n : NodeData) : n.equal n = true := by
  simp [NodeData.equal]

theorem alookup_pushBucket_self (m : List (Nat × List Nat)) (h ref : Nat) :
    alookup (pushBucket m h ref) h = some ((alookup m h).getD [] ++ [ref]) := by
  unfold pushBucket
  exact alookup_ainsert_self m h _

theorem nodeAt_override (st : GraphState) (l : List NodeData) (n : NodeData) :
    nodeAt { st with arena := l ++ [n] } l.length = n := by
  simp [nodeAt, List.getElem?_concat_length]

theorem add_register_frame (st : GraphState) (ref : Nat) (st1 : GraphState)
    (h : findOrRemember st ref = (none, st1)) :
    (add st ref).1 = ref ∧
    (add st ref).2.shortterm = st1.shortterm ∧
    (add st ref).2.longterm = st1.longterm ∧
    (add st ref).2.arena = st1.arena ∧
    (add st ref).2.count = st1.count + 1 ∧
    alookup (add st ref).2.ids ref = some st1.count := by
  unfold add
  rw [h]
  dsimp only
  refine ⟨?_, ?_, ?_, ?_, ?_, ?_⟩ <;>
    first
      | rfl
      | (split <;> split <;>
          first
            | rfl
            | exact alookup_ainsert_self _ _ _)

theorem dedup_find2 (stB : GraphState) (n : NodeData) (r1 r2 : Nat)
    (harena : nodeAt stB r2 = n)
    (hfound : nodeAt stB r1 = n)
    (hcaseL : (n.type != "param" && n.memoize) = true →
        alookup stB.longterm n.hash = some [r1])
    (hcaseS : (n.type != "param" && n.memoize) = false →
        alookup stB.shortterm n.hash = some [r1]) :
    findOrRemember stB r2 = (some r1, stB) := by
  by_cases hc : (n.type != "param" && n.memoize) = true
  · simp only [findOrRemember, harena, hc, hcaseL hc, if_true]
  · have hc' := Bool.of_not_eq_true hc
    simp only [findOrRemember, shorttermFind, harena, hc',
      Bool.false_eq_true, if_false, hcaseS hc', List.find?, hfound,
      equal_refl n]

theorem dedup_find1 (st : GraphState) (n : NodeData)
    (hs : alookup st.shortterm n.hash = none)
    (hl : alookup st.longterm n.hash = none) :
    findOrRemember { st with arena := st.arena ++ [n] } st.arena.length
      = (none, if (n.type != "param" && n.memoize) = true then
          { st with arena := st.arena ++ [n]
                  , longterm := pushBucket st.longterm n.hash st.arena.length
                  , shortterm := pushBucket st.shortterm n.hash st.arena.length }
        else
          { st with arena := st.arena ++ [n]
                  , shortterm := pushBucket st.shortterm n.hash st.arena.length }) := by
  have hnodeA := nodeAt_override st st.arena n
  by_cases hc : (n.type != "param" && n.memoize) = true
  · simp only [findOrRemember, shorttermFind, hnodeA, hc, hs, hl, if_pos, if_true]
  · simp only [findOrRemember, shorttermFind, hnodeA,
      Bool.of_not_eq_true hc, hs, hl, if_false, Bool.false_eq_true]

/-- C4: from a graph whose caches hold nothing under the node's hash,
registering a node assigns it the next id (`count`); constructing a
structurally identical copy and registering it returns the same node — the
same ref, carrying the same identifier — and leaves the graph state
completely unchanged, so the second construction is discarded. -/
theorem dedup_same_id (st : GraphState) (n : NodeData)
    (hs : alookup st.shortterm n.hash = none)
    (hl : alookup st.longterm n.hash = none) :
    (expression st n).1 = st.arena.length ∧
    alookup (expression st n).2.ids st.arena.length = some st.count ∧
    add (construct (expression st n).2 n).2 (construct (expression st n).2 n).1
      = (st.arena.length, (construct (expression st n).2 n).2) := by
  have hfr := dedup_find1 st n hs hl
  have frame := add_register_frame _ _ _ hfr
  obtain ⟨f1, fS, fL, fA, fC, fI⟩ := frame
  have hexp1 : (expression st n).1
      = (add { st with arena := st.arena ++ [n] } st.arena.length).1 := rfl
  have hexp2 : (expression st n).2
      = (add { st with arena := st.arena ++ [n] } st.arena.length).2 := rfl
  have hcount1 : (if (n.type != "param" && n.memoize) = true then
          { st with arena := st.arena ++ [n]
                  , longterm := pushBucket st.longterm n.hash st.arena.length
                  , shortterm := pushBucket st.shortterm n.hash st.arena.length }
        else
          { st with arena := st.arena ++ [n]
                  , shortterm := pushBucket st.shortterm n.hash st.arena.length }).count
      = st.count := by
    split <;> rfl
  have harena1 : (if (n.type != "param" && n.memoize) = true then
          { st with arena := st.arena ++ [n]
                  , longterm := pushBucket st.longterm n.hash st.arena.length
                  , shortterm := pushBucket st.shortterm n.hash st.arena.length }
        else
          { st with arena := st.arena ++ [n]
                  , shortterm := pushBucket st.shortterm n.hash st.arena.length }).arena
      = st.arena ++ [n] := by
    split <;> rfl
  have hshort1 : (if (n.type != "param" && n.memoize) = true then
          { st with arena := st.arena ++ [n]
                  , longterm := pushBucket st.longterm n.hash st.arena.length
                  , shortterm := pushBucket st.shortterm n.hash st.arena.length }
        else
          { st with arena := st.arena ++ [n]
                  , shortterm := pushBucket st.shortterm n.hash st.arena.length }).shortterm
      = pushBucket st.shortterm n.hash st.arena.length := by
    split <;> rfl
  have hlong1 : (n.type != "param" && n.memoize) = true →
      (if (n.type != "param" && n.memoize) = true then
          { st with arena := st.arena ++ [n]
                  , longterm := pushBucket st.longterm n.hash st.arena.length
                  , shortterm := pushBucket st.shortterm n.hash st.arena.length }
        else
          { st with arena := st.arena ++ [n]
                  , shortterm := pushBucket st.shortterm n.hash st.arena.length }).longterm
      = pushBucket st.longterm n.hash st.arena.length := by
    intro hc
    rw [if_pos hc]
  refine ⟨by rw [hexp1, f1], by rw [hexp2, fI, hcount1], ?_⟩
  rw [hexp2]
  simp only [construct]
  rw [fA, harena1]
  set X := (add { st with arena := st.arena ++ [n] } st.arena.length).2 with hX
  have hf2 : findOrRemember { X with arena := (st.arena ++ [n]) ++ [n] }
      ((st.arena ++ [n]).length) = (some st.arena.length
      , { X with arena := (st.arena ++ [n]) ++ [n] }) := by
    apply dedup_find2
    · exact nodeAt_override _ _ n
    · simp [nodeAt, List.getElem?_append, List.getElem?_concat_length,
        List.getElem_append_right]
    · intro hc
      show alookup X.longterm n.hash = some [st.arena.length]
      rw [fL, hlong1 hc, alookup_pushBucket_self, hl]
      rfl
    · intro hc
      show alookup X.shortterm n.hash = some [st.arena.length]
      rw [fS, hshort1, alookup_pushBucket_self, hs]
      rfl
  show add { X with arena := (st.arena ++ [n]) ++ [n] } ((st.arena ++ [n]).length)
      = (st.arena.length, { X with arena := (st.arena ++ [n]) ++ [n] })
  unfold add
  rw [hf2]


theorem dedup_same_id_witness :
    (expression (initialGraph false false) c10n).1 = 0 ∧
    alookup (expression (initialGraph false false) c10n).2.ids 0 = some 0 ∧
    add (construct (expression (initialGraph false false) c10n).2 c10n).2
        (construct (expression (initialGraph false false) c10n).2 c10n).1
      = (0, (construct (expression (initialGraph false false) c10n).2 c10n).2)
    := dedup_same_id (initialGraph false false) c10n (by decide) (by decide)

theorem findOrRemember_frame (st : GraphState) (ref : Nat) :
    (findOrRemember st ref).2.count = st.count ∧
    (findOrRemember st ref).2.ids = st.ids ∧
    (findOrRemember st ref).2.arena = st.arena := by
  unfold findOrRemember
  dsimp only
  split <;> (try split) <;> (try split) <;> exact ⟨rfl, rfl, rfl⟩

/-- C7: after `clear()` the forward tape, backward tape and root set are
empty; the parameter set is untouched, every name resolves as before, every
parameter node's value buffer is unchanged; and the next node that actually
registers (the cache misses) receives identifier 0. -/
theorem clear_semantics (st : GraphState) :
    (clear st).nodesForward = [] ∧
    (clear st).nodesBackward = [] ∧
    (clear st).topNodes = [] ∧
    (clear st).paramsMap = st.paramsMap ∧
    (∀ name, get (clear st) name = get st name) ∧
    (∀ p, (nodeAt st p).type = "param" → getVal (clear st) p = getVal st p) ∧
    (∀ ref st1, findOrRemember (clear st) ref = (none, st1) →
      alookup (add (clear st) ref).2.ids ref = some 0) := by
  refine ⟨rfl, rfl, rfl, rfl, fun name => rfl, ?_, ?_⟩
  · intro p hp
    unfold getVal
    dsimp only
    rw [show nodeAt (clear st) p = nodeAt st p from rfl, hp,
      show (clear st).paramVals = st.paramVals from rfl]
    simp
  · intro ref st1 h
    obtain ⟨-, -, -, -, -, fI⟩ := add_register_frame _ _ _ h
    rw [fI]
    have hc : st1.count = (clear st).count := by
      have h2 := (findOrRemember_frame (clear st) ref).1
      rw [h] at h2
      exact h2
    rw [hc]
    rfl

theorem clear_semantics_witness :
    ((clear c7st).nodesForward = [] ∧ (clear c7st).nodesBackward = [] ∧
     (clear c7st).topNodes = [] ∧ (clear c7st).paramsMap = c7st.paramsMap) ∧
    get (clear c7st) "W" = get c7st "W" ∧
    ((nodeAt c7st 0).type = "param" ∧ getVal c7st 0 = some 5 ∧
      getVal (clear c7st) 0 = getVal c7st 0) ∧
    alookup (add (clear c7st) 0).2.ids 0 = some 0 := by
  have h := clear_semantics c7st
  refine ⟨⟨h.1, h.2.1, h.2.2.1, h.2.2.2.1⟩, h.2.2.2.2.1 "W", ⟨by decide, by decide, h.2.2.2.2.2.1 0 (by decide)⟩, h.2.2.2.2.2.2 0 (findOrRemember (clear c7st) 0).2 (by decide)⟩


/-- C8: the capacity probe `fits()` reports success exactly when the demand
fits the reserved budget; on both the success and the budget-exceeded return
path the allocator's throw-at-reallocation probing mode ends up off, and a
subsequent probe after reserving a sufficient budget succeeds. -/
theorem fits_resets_probe (required : Nat) (st : AllocatorState) :
    (fits required st).1 = decide (required ≤ st.reserved) ∧
    (fits required st).2.throwAtRealloc = false ∧
    (∀ budget, required ≤ budget →
      (fits required (reserve (fits required st).2 budget)).1 = true) := by
  by_cases h : st.reserved < required
  · refine ⟨?_, ?_, ?_⟩
    · simp [fits, backpropAlloc, throwAtReallocation, h, Nat.not_le.2 h]
    · simp [fits, backpropAlloc, throwAtReallocation, h]
    · intro budget hb
      simp [fits, backpropAlloc, throwAtReallocation, reserve, h,
        Nat.not_lt.2 hb]
  · refine ⟨?_, ?_, ?_⟩
    · simp [fits, backpropAlloc, throwAtReallocation, h, Nat.not_lt.1 h]
    · simp [fits, backpropAlloc, throwAtReallocation, h]
    · intro budget hb
      simp [fits, backpropAlloc, throwAtReallocation, reserve, h,
        Nat.not_lt.2 hb]

theorem fits_resets_probe_witness :
    (fits 10 ⟨3, false⟩).1 = decide (10 ≤ 3) ∧
    (fits 10 ⟨3, false⟩).2.throwAtRealloc = false ∧
    (fits 10 (reserve (fits 10 ⟨3, false⟩).2 12)).1 = true := by
  have h := fits_resets_probe 10 ⟨3, false⟩
  exact ⟨h.1, h.2.1, h.2.2 12 (by decide)⟩


/-- C9: requesting a parameter under an existing name fails fatally exactly
when the requested shape differs from the stored shape, and otherwise returns
the existing node (re-registered via `add`); requesting a parameter under a
fresh name fails fatally when the graph is marked reloaded, and otherwise
succeeds, creating the parameter. -/
theorem param_error_conditions (st : GraphState) (pname : String)
    (shape : List Nat) (init : Int) (fixed : Bool) (phash : Nat) :
    (∀ p, alookup st.paramsMap (fullName st pname) = some p →
      (shape ≠ (nodeAt st p).shape →
        param st pname shape init fixed phash
          = Except.error MarianError.shapeMismatch) ∧
      (shape = (nodeAt st p).shape →
        param st pname shape init fixed phash
          = Except.ok (p, (add (setTrainable st p !fixed) p).2))) ∧
    (alookup st.paramsMap (fullName st pname) = none →
      (st.reloaded = true →
        param st pname shape init fixed phash
          = Except.error MarianError.reloadedNewParam) ∧
      (st.reloaded = false →
        alookup st.paramsMap (fullName st (fullName st pname)) = none →
        exceptOk (param st pname shape init fixed phash) = true)) := by
  constructor
  · intro p hp
    constructor
    · intro hne
      unfold param
      dsimp only
      rw [hp]
      dsimp only
      rw [if_pos hne]
    · intro heq
      unfold param
      dsimp only
      rw [hp]
      dsimp only
      rw [if_neg (not_ne_iff.2 heq)]
  · intro hnone
    constructor
    · intro hrel
      unfold param
      dsimp only
      rw [hnone]
      dsimp only
      rw [hrel]
      simp
    · intro hrel hname2
      unfold param
      dsimp only
      rw [hnone]
      dsimp only
      rw [hrel]
      simp only [Bool.false_eq_true, if_false]
      rw [show get st (fullName st pname)
          = alookup st.paramsMap (fullName st (fullName st pname)) from rfl]
      rw [hname2]
      simp [exceptOk]

theorem param_error_conditions_witness :
    param c7st "W" [3] 0 false 9 = Except.error MarianError.shapeMismatch ∧
    exceptOk (param c7st "V" [4] 0 false 10) = true := by
  have h := param_error_conditions c7st "W" [3] 0 false 9
  have h2 := param_error_conditions c7st "V" [4] 0 false 10
  exact ⟨(h.1 0 (by decide)).1 (by decide),
    (h2.2 (by decide)).2 (by decide) (by decide)⟩


/-- `backward` decomposed into its prefix and the tape loop. -/
theorem backward_via_pre (st : GraphState) (zero : Bool) :
    backward st zero =
      if st.topNodes.length > 1 then Except.error MarianError.multipleRoots
      else
        exceptAssemble (backwardPre st zero).2
          (backwardConsume
            { (backwardPre st zero).1 with nodesBackward := [] }
            (backwardPre st zero).1.nodesBackward.reverse) := rfl

theorem visitsOf_append (a b : List BEvent) :
    visitsOf (a ++ b) = visitsOf a ++ visitsOf b := by
  unfold visitsOf
  exact List.filterMap_append a b _

theorem accumulate_no_visit (st : GraphState) (l : List (Nat × Int))
    (st1 : GraphState) (evs : List BEvent)
    (h : accumulate st l = Except.ok (st1, evs)) : visitsOf evs = [] := by
  induction l generalizing st st1 evs with
  | nil =>
    unfold accumulate at h
    injection h with h1
    injection h1 with h1 h2
    subst h2
    rfl
  | cons kv rest ih =>
    unfold accumulate at h
    split at h
    · split at h
      · exact Except.noConfusion h
      · split at h
        · exact Except.noConfusion h
        next st2 evs2 heq =>
          injection h with h1
          injection h1 with h1 h2
          subst h2
          simpa [visitsOf] using ih _ _ _ heq
    · exact ih _ _ _ h

theorem nodeBackward_no_visit (st : GraphState) (v : Nat)
    (st1 : GraphState) (evs : List BEvent)
    (h : nodeBackward st v = Except.ok (st1, evs)) : visitsOf evs = [] := by
  unfold nodeBackward at h
  split at h
  · exact Except.noConfusion h
  · exact accumulate_no_visit _ _ _ _ h

theorem zeroFold_no_visit (cs : List Nat)
    (acc : GraphState × List BEvent) (hacc : visitsOf acc.2 = []) :
    visitsOf ((cs.foldl
      (fun (acc : GraphState × List BEvent) c =>
        if ((nodeAt acc.1 c).trainable && (nodeAt acc.1 c).type != "param")
            = true then
          ((set_zero_adjoint acc.1 c).1,
            acc.2 ++ if (set_zero_adjoint acc.1 c).2 = true
              then [BEvent.zeroed c] else [])
        else acc) acc).2) = [] := by
  induction cs generalizing acc with
  | nil => exact hacc
  | cons c rest ih =>
    simp only [List.foldl]
    apply ih
    split
    · dsimp only
      rw [visitsOf_append, hacc]
      split <;> rfl
    · exact hacc

theorem backwardStep_no_visit (st : GraphState) (v : Nat)
    (st1 : GraphState) (evs : List BEvent)
    (h : backwardStep st v = Except.ok (st1, evs)) : visitsOf evs = [] := by
  unfold backwardStep at h
  dsimp only at h
  split at h
  · exact Except.noConfusion h
  next st2 heq =>
    split at h
    · exact Except.noConfusion h
    next st3 evs3 heq2 =>
      injection h with h1
      injection h1 with ha hb
      subst hb
      rw [visitsOf_append, zeroFold_no_visit _ (st, []) rfl, List.nil_append]
      split at heq2
      · exact nodeBackward_no_visit _ _ _ _ heq2
      · injection heq2 with h3
        injection h3 with h3 h4
        subst h4
        rfl

theorem backwardConsume_visits (st : GraphState) (rev : List Nat)
    (st1 : GraphState) (evs : List BEvent)
    (h : backwardConsume st rev = Except.ok (st1, evs)) :
    visitsOf evs = rev := by
  induction rev generalizing st st1 evs with
  | nil =>
    unfold backwardConsume at h
    injection h with h1
    injection h1 with h1 h2
    subst h2
    rfl
  | cons v rest ih =>
    unfold backwardConsume at h
    split at h
    · exact Except.noConfusion h
    next st2 evs2 heq =>
      split at h
      · exact Except.noConfusion h
      next st3 evs3 heq2 =>
        injection h with h1
        injection h1 with h1 h2
        subst h2
        show visitsOf (BEvent.visit v :: evs2 ++ evs3) = v :: rest
        have hv : visitsOf (BEvent.visit v :: evs2 ++ evs3)
            = v :: visitsOf (evs2 ++ evs3) := rfl
        rw [hv, visitsOf_append, backwardStep_no_visit _ _ _ _ heq,
          List.nil_append, ih _ _ _ heq2]

theorem paramsAllocateBackward_nodesBackward (st : GraphState) :
    (paramsAllocateBackward st).nodesBackward = st.nodesBackward := by
  unfold paramsAllocateBackward
  generalize st.paramsMap = l
  induction l generalizing st with
  | nil => rfl
  | cons kv rest ih =>
    simp only [List.foldl]
    rw [ih]
    split <;> rfl

theorem paramsSetZeroAdjoint_nodesBackward (st : GraphState) :
    (paramsSetZeroAdjoint st).1.nodesBackward = st.nodesBackward := by
  unfold paramsSetZeroAdjoint
  have hgen : ∀ (l : List (String × Nat)) (acc : GraphState × List BEvent),
      (l.foldl (fun acc kv =>
        ({ acc.1 with paramGrads := ainsert acc.1.paramGrads kv.2 0 }
        , acc.2 ++ [BEvent.zeroed kv.2])) acc).1.nodesBackward
      = acc.1.nodesBackward := by
    intro l
    induction l with
    | nil => intro acc; rfl
    | cons kv rest ih =>
      intro acc
      simp only [List.foldl]
      rw [ih]
  exact hgen st.paramsMap (st, [])

theorem paramsSetZeroAdjoint_no_visit (st : GraphState) :
    visitsOf (paramsSetZeroAdjoint st).2 = [] := by
  unfold paramsSetZeroAdjoint
  have hgen : ∀ (l : List (String × Nat)) (acc : GraphState × List BEvent),
      visitsOf acc.2 = [] →
      visitsOf ((l.foldl (fun acc kv =>
        ({ acc.1 with paramGrads := ainsert acc.1.paramGrads kv.2 0 }
        , acc.2 ++ [BEvent.zeroed kv.2])) acc).2) = [] := by
    intro l
    induction l with
    | nil => intro acc hacc; exact hacc
    | cons kv rest ih =>
      intro acc hacc
      simp only [List.foldl]
      apply ih
      rw [visitsOf_append, hacc]
      rfl
  exact hgen st.paramsMap (st, []) rfl

theorem initDependentFold_nodesBackward (l : List Nat) (st : GraphState) :
    (l.foldl init_dependent st).nodesBackward = st.nodesBackward := by
  induction l generalizing st with
  | nil => rfl
  | cons r rest ih =>
    simp only [List.foldl]
    rw [ih]
    unfold init_dependent setGrad
    split
    · rfl
    · split <;> rfl

theorem backwardPre_nodesBackward (st : GraphState) (zero : Bool) :
    (backwardPre st zero).1.nodesBackward = st.nodesBackward := by
  unfold backwardPre
  rw [initDependentFold_nodesBackward]
  by_cases hz : zero = true
  · rw [hz]
    simp only [if_true]
    rw [paramsSetZeroAdjoint_nodesBackward, paramsAllocateBackward_nodesBackward]
  · rw [Bool.of_not_eq_true hz]
    simp only [Bool.false_eq_true, if_false]
    rw [paramsAllocateBackward_nodesBackward]

theorem backwardPre_no_visit (st : GraphState) (zero : Bool) :
    visitsOf (backwardPre st zero).2 = [] := by
  unfold backwardPre
  by_cases hz : zero = true
  · rw [hz]
    simp only [if_true]
    exact paramsSetZeroAdjoint_no_visit _
  · rw [Bool.of_not_eq_true hz]
    rfl

theorem backward_visits (st : GraphState) (zero : Bool) (stF : GraphState)
    (evs : List BEvent) (h : backward st zero = Except.ok (stF, evs)) :
    visitsOf evs = st.nodesBackward.reverse := by
  rw [backward_via_pre] at h
  split at h
  · exact Except.noConfusion h
  · unfold exceptAssemble at h
    split at h
    · exact Except.noConfusion h
    next st4 evs2 heq =>
      injection h with h1
      injection h1 with ha hb
      subst hb
      rw [visitsOf_append, backwardPre_no_visit, List.nil_append,
        backwardConsume_visits _ _ _ _ heq, backwardPre_nodesBackward]

theorem findOrRemember_frame2 (st : GraphState) (ref : Nat) :
    (findOrRemember st ref).2.nodesForward = st.nodesForward ∧
    (findOrRemember st ref).2.nodesBackward = st.nodesBackward ∧
    (findOrRemember st ref).2.arena = st.arena := by
  unfold findOrRemember
  dsimp only
  split <;> (try split) <;> (try split) <;> exact ⟨rfl, rfl, rfl⟩

theorem add_register_tapes (st : GraphState) (ref : Nat) (st1 : GraphState)
    (h : findOrRemember st ref = (none, st1)) :
    (add st ref).2.nodesForward = st1.nodesForward ++ [ref] ∧
    ((add st ref).2.nodesBackward = st1.nodesBackward ++ [ref] ∨
      (add st ref).2.nodesBackward = st1.nodesBackward) ∧
    (add st ref).2.arena = st1.arena := by
  unfold add
  rw [h]
  dsimp only
  refine ⟨?_, ?_, ?_⟩
  · split <;> split <;> rfl
  · split <;> split <;> first | (left; rfl) | (right; rfl)
  · split <;> split <;> rfl

theorem nodeAt_extend (st st' : GraphState) (ext : List NodeData) (r : Nat)
    (ha : st'.arena = st.arena ++ ext) (hr : r < st.arena.length) :
    nodeAt st' r = nodeAt st r := by
  unfold nodeAt
  rw [ha, List.get?_append hr]

theorem tapeInv_extend (st st' : GraphState) (ext : List NodeData)
    (hf : st'.nodesForward = st.nodesForward)
    (hb : st'.nodesBackward = st.nodesBackward)
    (ha : st'.arena = st.arena ++ ext)
    (hinv : TapeInv st) : TapeInv st' := by
  obtain ⟨hsub, hbound, hord⟩ := hinv
  refine ⟨by rw [hf, hb]; exact hsub, ?_, ?_⟩
  · intro r hr
    rw [hf] at hr
    have h2 := hbound r hr
    rw [ha, List.length_append]
    omega
  · intro j rj hj c hc
    rw [hf] at hj ⊢
    have hmem : rj ∈ st.nodesForward := List.get?_mem hj
    rw [nodeAt_extend st st' ext rj ha (hbound rj hmem)] at hc
    exact hord j rj hj c hc

theorem expression_inv (st : GraphState) (n : NodeData)
    (hinv : TapeInv st) (hcr : childrenRegistered st n = true) :
    TapeInv (expression st n).2 := by
  have hexp : (expression st n).2
      = (add { st with arena := st.arena ++ [n] } st.arena.length).2 := rfl
  rw [hexp]
  rcases hfr : findOrRemember { st with arena := st.arena ++ [n] }
      st.arena.length with ⟨res, st1⟩
  have hfr1 := findOrRemember_frame2 { st with arena := st.arena ++ [n] }
      st.arena.length
  rw [hfr] at hfr1
  obtain ⟨g1, g2, g3⟩ := hfr1
  cases res with
  | some found =>
    have hadd : add { st with arena := st.arena ++ [n] } st.arena.length
        = (found, st1) := by
      unfold add
      rw [hfr]
    rw [congrArg Prod.snd hadd]
    exact tapeInv_extend st st1 [n] g1 g2 g3 hinv
  | none =>
    obtain ⟨t1, t2, t3⟩ := add_register_tapes _ _ _ hfr
    obtain ⟨hsub, hbound, hord⟩ := hinv
    have harena : (add { st with arena := st.arena ++ [n] }
        st.arena.length).2.arena = st.arena ++ [n] := by rw [t3, g3]
    have hforward : (add { st with arena := st.arena ++ [n] }
        st.arena.length).2.nodesForward = st.nodesForward ++ [st.arena.length] := by
      rw [t1, g1]
    have hchildren : ∀ c ∈ n.children, c ∈ st.nodesForward := by
      intro c hcmem
      have h2 := (List.all_eq_true.1 hcr) c hcmem
      simpa using h2
    refine ⟨?_, ?_, ?_⟩
    · rw [hforward]
      rcases t2 with h2 | h2 <;> rw [h2, g2]
      · exact hsub.append (List.Sublist.refl _)
      · exact hsub.trans (List.sublist_append_left _ _)
    · intro r hr
      rw [hforward] at hr
      rw [harena, List.length_append]
      rcases List.mem_append.1 hr with h2 | h2
      · have := hbound r h2
        simp only [List.length_singleton]
        omega
      · simp only [List.mem_singleton] at h2
        subst h2
        simp
    · intro j rj hj c hc
      rw [hforward] at hj ⊢
      by_cases hjlt : j < st.nodesForward.length
      · rw [List.get?_append hjlt] at hj
        have hmem : rj ∈ st.nodesForward := List.get?_mem hj
        have hnode : nodeAt (add { st with arena := st.arena ++ [n] }
            st.arena.length).2 rj = nodeAt st rj := by
          unfold nodeAt
          rw [harena, List.get?_append (hbound rj hmem)]
        rw [hnode] at hc
        obtain ⟨i, hi, hgi⟩ := hord j rj hj c hc
        exact ⟨i, hi, by rw [List.get?_append (lt_trans hi hjlt)]; exact hgi⟩
      · have hjle : st.nodesForward.length ≤ j := Nat.le_of_not_lt hjlt
        rw [List.get?_append_right hjle] at hj
        have hj0 : j - st.nodesForward.length = 0 := by
          rcases Nat.lt_or_ge (j - st.nodesForward.length) 1 with h2 | h2
          · omega
          · rw [List.get?_eq_none.2 (by simpa using h2)] at hj
            exact Option.noConfusion hj
        rw [hj0] at hj
        injection hj with hj
        subst hj
        have hjeq : j = st.nodesForward.length := by omega
        have hnode : nodeAt (add { st with arena := st.arena ++ [n] }
            st.arena.length).2 st.arena.length = n := by
          unfold nodeAt
          rw [harena]
          simp [List.getElem?_concat_length]
        rw [hnode] at hc
        have hcmem := hchildren c hc
        obtain ⟨i, hgi⟩ := List.mem_iff_get?.1 hcmem
        have hilt : i < st.nodesForward.length := by
          by_contra hcontra
          rw [List.get?_eq_none.2 (Nat.le_of_not_lt hcontra)] at hgi
          exact Option.noConfusion hgi
        refine ⟨i, by omega, ?_⟩
        rw [List.get?_append hilt]
        exact hgi

theorem buildAll_inv (spec : List NodeData) (st : GraphState)
    (hinv : TapeInv st) (hv : validBuild st spec = true) :
    TapeInv (buildAll st spec) := by
  induction spec generalizing st with
  | nil => exact hinv
  | cons n rest ih =>
    unfold validBuild at hv
    rw [Bool.and_eq_true] at hv
    exact ih _ (expression_inv st n hinv hv.1) hv.2

theorem initialGraph_inv (inference cp : Bool) :
    TapeInv (initialGraph inference cp) := by
  refine ⟨List.Sublist.refl _, ?_, ?_⟩
  · intro r hr
    exact absurd hr (by simp [initialGraph])
  · intro j rj hj
    exact absurd hj (by simp [initialGraph])

/-- C6: after any valid build cycle the backward tape is an order-preserving
subsequence of the forward tape, every node on the forward tape appears after
all of its children, and a completed `backward()` run visits the backward
tape in exactly reverse order. -/
theorem tape_invariants (inference cp : Bool) (spec : List NodeData)
    (hv : validBuild (initialGraph inference cp) spec = true) :
    (buildAll (initialGraph inference cp) spec).nodesBackward.Sublist
      (buildAll (initialGraph inference cp) spec).nodesForward ∧
    ForwardOrdered (buildAll (initialGraph inference cp) spec) ∧
    (∀ zero stF evs,
      backward (buildAll (initialGraph inference cp) spec) zero
        = Except.ok (stF, evs) →
      visitsOf evs
        = (buildAll (initialGraph inference cp) spec).nodesBackward.reverse)
    := by
  have hinv := buildAll_inv spec _ (initialGraph_inv inference cp) hv
  exact ⟨hinv.1, hinv.2.2, fun zero stF evs h => backward_visits _ _ _ _ h⟩

theorem tape_invariants_witness :
    c6B.nodesBackward.Sublist c6B.nodesForward ∧
    ForwardOrdered c6B ∧
    visitsOf c6Evs = c6B.nodesBackward.reverse := by
  have h := tape_invariants false false [c1Child, c1Parent1 2] (by decide)
  exact ⟨h.1, h.2.1, h.2.2 true c6StF c6Evs (by rfl)⟩



theorem c1_build1 :
    (expression (initialGraph false false) c1Child).2 = c1S1 := rfl

theorem c1_build2 (a : Int) :
    (expression c1S1 (c1Parent1 a)).2 = c1S2 a := rfl

theorem c1_build3 (a b : Int) :
    (expression (c1S2 a) (c1Parent2 b)).2 = c1S3 a b := rfl

theorem c1_build4 (a b : Int) :
    (expression (c1S3 a b) c1Root).2 = c1S4 a b := rfl

theorem c1_build (a b : Int) : c1State a b = c1S4 a b := by
  simp only [c1State, buildAll]
  rw [c1_build1, c1_build2, c1_build3, c1_build4]

theorem c1_step3 (a b : Int) :
    backwardStep (c1Back a b [] [1, 2] [0] [0] [(3, 1)]) 3
    = Except.ok (c1Back a b [] [] [0] [0] [(2, 0 + 1), (1, 0 + 1), (3, 1)]
      , [BEvent.zeroed 1, BEvent.zeroed 2, BEvent.accum 1 1
        , BEvent.accum 2 1]) := rfl

theorem c1_step2 (a b : Int) :
    backwardStep (c1Back a b [] [] [0] [0] [(2, 0 + 1), (1, 0 + 1), (3, 1)]) 2
    = Except.ok (c1Back a b [] [] [] [0]
        [(0, 0 + b * (0 + 1)), (2, 0 + 1), (1, 0 + 1), (3, 1)]
      , [BEvent.zeroed 0, BEvent.accum 0 (b * (0 + 1))]) := rfl

theorem c1_step1 (a b : Int) :
    backwardStep (c1Back a b [] [] [] [0]
        [(0, 0 + b * (0 + 1)), (2, 0 + 1), (1, 0 + 1), (3, 1)]) 1
    = Except.ok (c1Back a b [] [] [] [] (c1GradsFinal a b)
      , [BEvent.accum 0 (a * (0 + 1))]) := rfl

theorem c1_step0 (a b : Int) :
    backwardStep (c1Back a b [] [] [] [] (c1GradsFinal a b)) 0
    = Except.ok (c1Back a b [] [] [] [] (c1GradsFinal a b), []) := rfl

theorem c1_consume (a b : Int) :
    backwardConsume (c1Back a b [] [1, 2] [0] [0] [(3, 1)]) [3, 2, 1, 0]
    = Except.ok (c1Back a b [] [] [] [] (c1GradsFinal a b), c1Evs a b) := by
  simp only [backwardConsume, c1_step3, c1_step2, c1_step1, c1_step0,
    List.cons_append, List.nil_append]
  rfl

theorem c1_pre (a b : Int) :
    backwardPre (c1S4 a b) true
    = (c1Back a b [0, 1, 2, 3] [1, 2] [0] [0] [(3, 1)], []) := rfl

theorem c1_backward (a b : Int) :
    backward (c1S4 a b) true
    = Except.ok (c1Back a b [] [] [] [] (c1GradsFinal a b), c1Evs a b) := by
  have hroot : ¬(c1S4 a b).topNodes.length > 1 := by simp [c1S4]
  have hA : ({ c1Back a b [0, 1, 2, 3] [1, 2] [0] [0] [(3, 1)]
      with nodesBackward := ([] : List Nat) } : GraphState)
      = c1Back a b [] [1, 2] [0] [0] [(3, 1)] := rfl
  have hB : (c1Back a b [0, 1, 2, 3] [1, 2] [0] [0]
      [(3, 1)]).nodesBackward.reverse = [3, 2, 1, 0] := rfl
  rw [backward_via_pre, if_neg hroot, c1_pre]
  dsimp only
  rw [hA, hB, c1_consume]
  rfl

/-- C1: in the graph where leaf 0 is consumed by the two distinct parents 1
and 2 with arbitrary contributions `a` and `b`, the backward pass succeeds,
the leaf's gradient buffer ends as the sum `a + b` of the two parents'
contributions, the leaf's buffer is zero-initialized exactly once, and that
zero-initialization happens before either parent's contribution is
accumulated. -/
theorem gradient_accumulation (a b : Int) :
    ∃ stF evs, backward (c1State a b) true = Except.ok (stF, evs) ∧
      getGrad stF 0 = some (a + b) ∧
      (evs.filter (isZeroedOf 0)).length = 1 ∧
      (evs.filter (isAccumOf 0)).length = 2 ∧
      (evs.takeWhile (fun e => !(isZeroedOf 0 e))).filter (isAccumOf 0)
        = [] := by
  refine ⟨c1Back a b [] [] [] [] (c1GradsFinal a b), c1Evs a b
    , ?_, ?_, ?_, ?_, ?_⟩
  · rw [c1_build]
    exact c1_backward a b
  · exact congrArg some
      (by show 0 + b * (0 + 1) + a * (0 + 1) = a + b; ring)
  · rfl
  · rfl
  · rfl

/-! ### Checkpointing equivalence (C5) -/

theorem childrenLt_of_B (arena : List NodeData)
    (h : childrenLtB arena = true) : ChildrenLt arena := by
  intro r c hc
  by_cases hr : r < arena.length
  · have h2 := (List.all_eq_true.1 h) r (List.mem_range.2 hr)
    have h3 := (List.all_eq_true.1 h2) c hc
    simpa using h3
  · rw [List.get?_eq_none.2 (Nat.le_of_not_lt hr)] at hc
    simp only [Option.getD_none] at hc
    exact absurd hc (by simp [default, Inhabited.default])

theorem pairwise_of_ascB (l : List Nat) (h : ascB l = true) :
    List.Pairwise (fun a b => a < b) l := by
  induction l with
  | nil => exact List.Pairwise.nil
  | cons a t ih =>
    cases t with
    | nil => exact List.pairwise_singleton _ _
    | cons b t2 =>
      unfold ascB at h
      rw [Bool.and_eq_true, decide_eq_true_eq] at h
      have hp := ih h.2
      refine List.Pairwise.cons ?_ hp
      intro c hc
      rcases List.mem_cons.1 hc with h2 | h2
      · subst h2
        exact h.1
      · exact lt_trans h.1 (List.rel_of_pairwise_cons hp h2)

theorem alookup_aremove_self {κ α : Type} [BEq κ] [LawfulBEq κ]
    (m : List (κ × α)) (k : κ) : alookup (aremove m k) k = none := by
  unfold aremove alookup
  induction m with
  | nil => rfl
  | cons kv rest ih =>
    by_cases hkv : kv.1 = k
    · simpa [List.filter, hkv] using ih
    · have h1 : (kv.1 == k) = false := by simp [hkv]
      simp only [List.filter, h1, Bool.not_false, List.find?, h1] at ih ⊢
      exact ih

theorem alookup_aremove_ne {κ α : Type} [BEq κ] [LawfulBEq κ]
    (m : List (κ × α)) (k k' : κ) (h : k' ≠ k) :
    alookup (aremove m k) k' = alookup m k' := by
  unfold aremove
  exact alookup_filter_ne m k k' h

theorem ctrlOf_setVal (st : GraphState) (v : Nat) (x : Int) :
    ctrlOf (setVal st v x) = ctrlOf st := by
  unfold setVal
  dsimp only
  split
  · rfl
  · split <;> rfl

theorem ctrlOf_freeVal (st : GraphState) (v : Nat) :
    ctrlOf (freeVal st v) = ctrlOf st := by
  unfold freeVal
  dsimp only
  split
  · rfl
  · split <;> rfl

theorem ctrlOf_allocate (st : GraphState) (v : Nat) :
    ctrlOf (allocate st v) = ctrlOf st := by
  unfold allocate
  split
  · rfl
  · exact ctrlOf_setVal st v 0

theorem ctrlOf_initNode (st : GraphState) (v : Nat) :
    ctrlOf (initNode st v) = ctrlOf st := by
  unfold initNode
  split
  · exact ctrlOf_setVal _ _ _
  · rfl

theorem arena_of_ctrl {st st' : GraphState} (h : ctrlOf st' = ctrlOf st) :
    st'.arena = st.arena := congrArg (fun t => t.1) h

theorem nodeAt_eq_of_arena {st st' : GraphState} (h : st'.arena = st.arena) :
    ∀ r, nodeAt st' r = nodeAt st r := by
  intro r
  unfold nodeAt
  rw [h]

theorem getVal_setVal_self (st : GraphState) (v : Nat) (x : Int) :
    getVal (setVal st v x) v = some x := by
  have hn := nodeAt_eq_of_arena (arena_of_ctrl (ctrlOf_setVal st v x)) v
  unfold getVal
  rw [hn]
  unfold setVal
  dsimp only
  by_cases h1 : ((nodeAt st v).type == "param") = true
  · rw [if_pos h1, if_pos h1]
    exact alookup_ainsert_self _ _ _
  · rw [if_neg h1, if_neg h1]
    by_cases h2 : (nodeAt st v).memoize = true
    · rw [if_pos h2, if_pos h2]
      exact alookup_ainsert_self _ _ _
    · rw [if_neg h2, if_neg h2]
      exact alookup_ainsert_self _ _ _

theorem getVal_setVal_ne (st : GraphState) (v : Nat) (x : Int) (r : Nat)
    (h : r ≠ v) : getVal (setVal st v x) r = getVal st r := by
  have hn := nodeAt_eq_of_arena (arena_of_ctrl (ctrlOf_setVal st v x)) r
  unfold getVal
  rw [hn]
  unfold setVal
  dsimp only
  by_cases h1 : ((nodeAt st v).type == "param") = true
  · rw [if_pos h1]
    by_cases h3 : ((nodeAt st r).type == "param") = true
    · rw [if_pos h3, if_pos h3]
      exact alookup_ainsert_ne _ _ _ _ h
    · rw [if_neg h3, if_neg h3]
  · rw [if_neg h1]
    by_cases h2 : (nodeAt st v).memoize = true
    · rw [if_pos h2]
      by_cases h3 : ((nodeAt st r).type == "param") = true
      · rw [if_pos h3, if_pos h3]
      · rw [if_neg h3, if_neg h3]
        by_cases h4 : (nodeAt st r).memoize = true
        · rw [if_pos h4, if_pos h4]
          exact alookup_ainsert_ne _ _ _ _ h
        · rw [if_neg h4, if_neg h4]
    · rw [if_neg h2]
      by_cases h3 : ((nodeAt st r).type == "param") = true
      · rw [if_pos h3, if_pos h3]
      · rw [if_neg h3, if_neg h3]
        by_cases h4 : (nodeAt st r).memoize = true
        · rw [if_pos h4, if_pos h4]
        · rw [if_neg h4, if_neg h4]
          exact alookup_ainsert_ne _ _ _ _ h

theorem getVal_freeVal_ne (st : GraphState) (v : Nat) (r : Nat)
    (h : r ≠ v) : getVal (freeVal st v) r = getVal st r := by
  have hn := nodeAt_eq_of_arena (arena_of_ctrl (ctrlOf_freeVal st v)) r
  unfold getVal
  rw [hn]
  unfold freeVal
  dsimp only
  by_cases h1 : ((nodeAt st v).type == "param") = true
  · rw [if_pos h1]
  · rw [if_neg h1]
    by_cases h2 : (nodeAt st v).memoize = true
    · rw [if_pos h2]
      by_cases h3 : ((nodeAt st r).type == "param") = true
      · rw [if_pos h3, if_pos h3]
      · rw [if_neg h3, if_neg h3]
        by_cases h4 : (nodeAt st r).memoize = true
        · rw [if_pos h4, if_pos h4]
          exact alookup_aremove_ne _ _ _ h
        · rw [if_neg h4, if_neg h4]
    · rw [if_neg h2]
      by_cases h3 : ((nodeAt st r).type == "param") = true
      · rw [if_pos h3, if_pos h3]
      · rw [if_neg h3, if_neg h3]
        by_cases h4 : (nodeAt st r).memoize = true
        · rw [if_pos h4, if_pos h4]
        · rw [if_neg h4, if_neg h4]
          exact alookup_aremove_ne _ _ _ h

theorem getVal_freeVal_subset (st : GraphState) (v : Nat) (r : Nat) (x : Int)
    (h : getVal (freeVal st v) r = some x) : getVal st r = some x := by
  by_cases hr : r = v
  · subst hr
    have hn := nodeAt_eq_of_arena (arena_of_ctrl (ctrlOf_freeVal st r)) r
    unfold getVal at h
    rw [hn] at h
    unfold freeVal at h
    dsimp only at h
    by_cases h1 : ((nodeAt st r).type == "param") = true
    · rw [if_pos h1] at h
      unfold getVal
      rw [if_pos h1]
      rw [if_pos h1] at h
      exact h
    · rw [if_neg h1] at h
      rw [if_neg h1] at h
      by_cases h2 : (nodeAt st r).memoize = true
      · rw [if_pos h2] at h
        rw [if_pos h2] at h
        rw [alookup_aremove_self] at h
        exact Option.noConfusion h
      · rw [if_neg h2] at h
        rw [if_neg h2] at h
        rw [alookup_aremove_self] at h
        exact Option.noConfusion h
  · rw [getVal_freeVal_ne st v r hr] at h
    exact h

theorem childVals_congr (st st' : GraphState) (cs : List Nat)
    (h : ∀ c ∈ cs, getVal st' c = getVal st c) :
    childVals st' cs = childVals st cs := by
  induction cs with
  | nil => rfl
  | cons c rest ih =>
    unfold childVals
    rw [h c (by simp)]
    rw [ih (fun c2 hc2 => h c2 (by simp [hc2]))]

theorem ctrlOf_freeSubtape (st : GraphState) (v : Nat) :
    ctrlOf (freeSubtape st v) = ctrlOf st := by
  unfold freeSubtape
  split
  next tape heq =>
    clear heq
    induction tape generalizing st with
    | nil => rfl
    | cons u rest ih =>
      simp only [List.foldl]
      rw [ih (freeVal st u), ctrlOf_freeVal]
  · rfl

theorem getVal_freeSubtape_subset (st : GraphState) (v : Nat) (r : Nat)
    (x : Int) (h : getVal (freeSubtape st v) r = some x) :
    getVal st r = some x := by
  unfold freeSubtape at h
  split at h
  next tape heq =>
    clear heq
    induction tape generalizing st with
    | nil => exact h
    | cons u rest ih =>
      simp only [List.foldl] at h
      exact getVal_freeVal_subset _ _ _ _ (ih (freeVal st u) h)
  · exact h

theorem getVal_allocate_ne (st : GraphState) (v r : Nat) (h : r ≠ v) :
    getVal (allocate st v) r = getVal st r := by
  unfold allocate
  split
  · rfl
  · exact getVal_setVal_ne _ _ _ _ h

theorem getVal_initNode_ne (st : GraphState) (v r : Nat) (h : r ≠ v) :
    getVal (initNode st v) r = getVal st r := by
  unfold initNode
  split
  · exact getVal_setVal_ne _ _ _ _ h
  · rfl

theorem valueOf_opForward (n : NodeData) (args : List Int) (cur : Int)
    (hleaf : ∀ i, n.op = Op.leaf i → cur = i) :
    opForward n.op args cur = valueOf n args := by
  unfold valueOf
  cases hop : n.op with
  | leaf i => simp [opForward, hleaf i hop]
  | scale k => rfl
  | add2 => rfl
  | mul2 => rfl

theorem inferenceOnly_of_ctrl {st st' : GraphState}
    (h : ctrlOf st' = ctrlOf st) : st'.inferenceOnly = st.inferenceOnly :=
  congrArg (fun t => t.2.2.2.2.2.2.2.2.2.1) h

theorem checkpointing_of_ctrl {st st' : GraphState}
    (h : ctrlOf st' = ctrlOf st) : st'.checkpointing = st.checkpointing :=
  congrArg (fun t => t.2.2.2.2.2.2.2.2.2.2) h

theorem forwardStep_ok_spec (st : GraphState) (fp : Bool) (v : Nat)
    (st' : GraphState) (h : forwardStep st fp v = Except.ok st')
    (hInf : st.inferenceOnly = false)
    (hlt : ∀ c ∈ (nodeAt st v).children, c < v) :
    ctrlOf st' = ctrlOf st ∧
    ∃ args, childVals st (nodeAt st v).children = Except.ok args ∧
      (∀ r x, getVal st' r = some x →
        (r = v ∧ x = valueOf (nodeAt st v) args) ∨
        (r ≠ v ∧ getVal st r = some x)) ∧
      ((st.checkpointing && !fp) = false →
        getVal st' v = some (valueOf (nodeAt st v) args) ∧
        ∀ r, r ≠ v → getVal st' r = getVal st r) := by
  have hctrl1 : ctrlOf (initNode (allocate st v) v) = ctrlOf st := by
    rw [ctrlOf_initNode, ctrlOf_allocate]
  have hnode1 : nodeAt (initNode (allocate st v) v) v = nodeAt st v :=
    nodeAt_eq_of_arena (arena_of_ctrl hctrl1) v
  have hne1 : ∀ r, r ≠ v →
      getVal (initNode (allocate st v) v) r = getVal st r := by
    intro r hr
    rw [getVal_initNode_ne _ _ _ hr, getVal_allocate_ne _ _ _ hr]
  have hcv : childVals (initNode (allocate st v) v)
      (nodeAt (initNode (allocate st v) v) v).children
      = childVals st (nodeAt st v).children := by
    rw [hnode1]
    exact childVals_congr _ _ _
      (fun c hc => hne1 c (Nat.ne_of_lt (hlt c hc)))
  unfold forwardStep at h
  dsimp only at h
  rw [hcv] at h
  split at h
  · exact Except.noConfusion h
  next args heq =>
    injection h with h1
    subst h1
    set mid := initNode (allocate st v) v with hmid
    set w := opForward (nodeAt mid v).op args ((getVal mid v).getD 0) with hw
    have hW : w = valueOf (nodeAt st v) args := by
      rw [hw, hnode1]
      apply valueOf_opForward
      intro i hi
      rw [hmid]
      unfold initNode
      have hna : nodeAt (allocate st v) v = nodeAt st v :=
        nodeAt_eq_of_arena (arena_of_ctrl (ctrlOf_allocate st v)) v
      rw [hna, hi]
      dsimp only
      rw [getVal_setVal_self]
      rfl
    have hctrl3 : ctrlOf (setVal mid v w) = ctrlOf st := by
      rw [ctrlOf_setVal, hmid, hctrl1]
    have hic : (setVal mid v w).inferenceOnly = false := by
      rw [inferenceOnly_of_ctrl hctrl3, hInf]
    have hcc : (setVal mid v w).checkpointing = st.checkpointing :=
      checkpointing_of_ctrl hctrl3
    have hval3 : getVal (setVal mid v w) v = some w := getVal_setVal_self _ _ _
    have hval3ne : ∀ r, r ≠ v → getVal (setVal mid v w) r = getVal st r := by
      intro r hr
      rw [getVal_setVal_ne _ _ _ _ hr, hmid]
      exact hne1 r hr
    split
    next hcond =>
      rw [hic] at hcond
      exact Bool.noConfusion hcond
    next hcond =>
      clear hcond
      split
      next hcond2 =>
        rw [hcc] at hcond2
        refine ⟨by rw [ctrlOf_freeSubtape, hctrl3], args, heq, ?_, ?_⟩
        · intro r x hx
          have hx3 := getVal_freeSubtape_subset _ _ _ _ hx
          by_cases hr : r = v
          · subst hr
            rw [hval3] at hx3
            injection hx3 with hx3
            exact Or.inl ⟨rfl, by rw [← hx3, hW]⟩
          · rw [hval3ne r hr] at hx3
            exact Or.inr ⟨hr, hx3⟩
        · intro hcontra
          rw [hcontra] at hcond2
          exact Bool.noConfusion hcond2
      next hcond2 =>
        refine ⟨hctrl3, args, heq, ?_, ?_⟩
        · intro r x hx
          by_cases hr : r = v
          · subst hr
            rw [hval3] at hx
            injection hx with hx
            exact Or.inl ⟨rfl, by rw [← hx, hW]⟩
          · rw [hval3ne r hr] at hx
            exact Or.inr ⟨hr, hx⟩
        · intro _
          exact ⟨by rw [hval3, hW], hval3ne⟩

theorem childVals_ok_live (st : GraphState) (cs : List Nat) (as_ : List Int)
    (h : childVals st cs = Except.ok as_) :
    ∀ c ∈ cs, ∃ y, getVal st c = some y := by
  induction cs generalizing as_ with
  | nil => intro c hc; exact absurd hc (by simp)
  | cons c0 rest ih =>
    intro c hc
    unfold childVals at h
    split at h
    · exact Except.noConfusion h
    next y hy =>
      split at h
      · exact Except.noConfusion h
      next ys hys =>
        rcases List.mem_cons.1 hc with h2 | h2
        · subst h2
          exact ⟨y, hy⟩
        · exact ih _ hys c h2

theorem childVals_agree (stA stB : GraphState) (cs : List Nat)
    (hag : valsAgree stA stB) (as_ bs : List Int)
    (hA : childVals stA cs = Except.ok as_)
    (hB : childVals stB cs = Except.ok bs) : as_ = bs := by
  induction cs generalizing as_ bs with
  | nil =>
    unfold childVals at hA hB
    injection hA with hA
    injection hB with hB
    rw [← hA, ← hB]
  | cons c0 rest ih =>
    unfold childVals at hA hB
    split at hA
    · exact Except.noConfusion hA
    next y hy =>
      split at hA
      · exact Except.noConfusion hA
      next ys hys =>
        split at hB
        · exact Except.noConfusion hB
        next z hz =>
          split at hB
          · exact Except.noConfusion hB
          next zs hzs =>
            injection hA with hA
            injection hB with hB
            rw [← hA, ← hB, hag c0 y z hy hz, ih _ _ hys hzs]

theorem consistent_after_write (arena : List NodeData)
    (stA stA1 : GraphState) (v : Nat) (args : List Int)
    (harena : stA.arena = arena) (hlt : ChildrenLt arena)
    (hargs : childVals stA ((arena.get? v).getD default).children
      = Except.ok args)
    (hv : getVal stA1 v = some (valueOf ((arena.get? v).getD default) args))
    (hne : ∀ r, r ≠ v → getVal stA1 r = getVal stA r)
    (hcons : ValsConsistent arena stA) : ValsConsistent arena stA1 := by
  have hchild_unch : childVals stA1 ((arena.get? v).getD default).children
      = childVals stA ((arena.get? v).getD default).children :=
    childVals_congr _ _ _ (fun c hc => hne c (Nat.ne_of_lt (hlt v c hc)))
  intro r x hx
  by_cases hr : r = v
  · subst hr
    rw [hv] at hx
    injection hx with hx
    unfold expectedVal
    dsimp only
    rw [hchild_unch, hargs]
    exact congrArg some hx
  · rw [hne r hr] at hx
    have hexp := hcons r x hx
    unfold expectedVal at hexp ⊢
    dsimp only at hexp ⊢
    split at hexp
    next argsR hargsR =>
      injection hexp with hexp
      have hptwise : ∀ c ∈ ((arena.get? r).getD default).children,
          getVal stA1 c = getVal stA c := by
        intro c hc
        by_cases hcv : c = v
        · subst hcv
          obtain ⟨xv, hxv⟩ := childVals_ok_live _ _ _ hargsR c hc
          have hexpv := hcons c xv hxv
          unfold expectedVal at hexpv
          dsimp only at hexpv
          rw [hargs] at hexpv
          injection hexpv with hexpv
          rw [hxv, hv, hexpv]
        · exact hne c hcv
      rw [childVals_congr _ _ _ hptwise, hargsR]
      exact congrArg some hexp
    · exact Option.noConfusion hexp

theorem bool_and_not_true (c : Bool) : (c && !true) = false := by
  simp

theorem forwardTapeRun_lockstep (tape : List Nat) :
    ∀ (stA stB stA' stB' : GraphState),
    stA.inferenceOnly = false → stB.inferenceOnly = false →
    stB.arena = stA.arena →
    ChildrenLt stA.arena →
    valsAgree stA stB →
    ValsConsistent stA.arena stA →
    forwardTapeRun stA tape true = Except.ok stA' →
    forwardTapeRun stB tape false = Except.ok stB' →
    ctrlOf stA' = ctrlOf stA ∧ ctrlOf stB' = ctrlOf stB ∧
    valsAgree stA' stB' ∧ ValsConsistent stA'.arena stA' := by
  induction tape with
  | nil =>
    intro stA stB stA' stB' hIA hIB harena hlt hag hcons hA hB
    unfold forwardTapeRun at hA hB
    injection hA with hA
    injection hB with hB
    subst hA
    subst hB
    exact ⟨rfl, rfl, hag, hcons⟩
  | cons v rest ih =>
    intro stA stB stA' stB' hIA hIB harena hlt hag hcons hA hB
    unfold forwardTapeRun at hA hB
    split at hA
    · exact Except.noConfusion hA
    next stA1 heqA =>
      split at hB
      · exact Except.noConfusion hB
      next stB1 heqB =>
        obtain ⟨hctrlA, argsA, hargsA, hsubA, hexactA⟩ :=
          forwardStep_ok_spec stA true v stA1 heqA hIA
            (fun c hc => hlt v c hc)
        obtain ⟨hctrlB, argsB, hargsB, hsubB, hexactB⟩ :=
          forwardStep_ok_spec stB false v stB1 heqB hIB
            (by
              intro c hc
              rw [show nodeAt stB v = nodeAt stA v from
                nodeAt_eq_of_arena harena v] at hc
              exact hlt v c hc)
        have hnodeBA : nodeAt stB v = nodeAt stA v :=
          nodeAt_eq_of_arena harena v
        rw [hnodeBA] at hargsB
        have hargsEq : argsA = argsB :=
          childVals_agree stA stB _ hag argsA argsB hargsA hargsB
        obtain ⟨hvA, hneA⟩ := hexactA (bool_and_not_true _)
        have hwEq : valueOf (nodeAt stB v) argsB
            = valueOf (nodeAt stA v) argsA := by
          rw [hnodeBA, hargsEq]
        -- new invariants
        have harenaA1 : stA1.arena = stA.arena := arena_of_ctrl hctrlA
        have harenaB1 : stB1.arena = stA1.arena := by
          rw [arena_of_ctrl hctrlB, harena, harenaA1]
        have hltA1 : ChildrenLt stA1.arena := by
          rw [harenaA1]
          exact hlt
        have hagA1 : valsAgree stA1 stB1 := by
          intro r x y hx hy
          rcases hsubB r y hy with ⟨hrv, hyw⟩ | ⟨hrv, hyold⟩
          · subst hrv
            rw [hvA] at hx
            injection hx with hx
            rw [← hx, hyw, hwEq]
          · rw [hneA r hrv] at hx
            exact hag r x y hx hyold
        have hconsA1 : ValsConsistent stA1.arena stA1 := by
          rw [harenaA1]
          exact consistent_after_write stA.arena stA stA1 v argsA rfl hlt
            hargsA hvA hneA hcons
        have hIA1 : stA1.inferenceOnly = false := by
          rw [inferenceOnly_of_ctrl hctrlA, hIA]
        have hIB1 : stB1.inferenceOnly = false := by
          rw [inferenceOnly_of_ctrl hctrlB, hIB]
        obtain ⟨cA, cB, agF, consF⟩ := ih stA1 stB1 stA' stB' hIA1 hIB1
          harenaB1 hltA1 hagA1 hconsA1 hA hB
        refine ⟨cA.trans hctrlA, cB.trans hctrlB, agF, consF⟩

theorem coreOf_subtapesSet (st : GraphState) (m : List (Nat × List Nat)) :
    coreOf { st with subtapes := m } = coreOf st := rfl

theorem createSubtape_core (fuel : Nat) :
    ∀ (st : GraphState) (ref : Nat),
    coreOf (createSubtape fuel st ref) = coreOf st := by
  induction fuel with
  | zero => intro st ref; rfl
  | succ fuel ihf =>
    intro st ref
    unfold createSubtape
    have hfold : ∀ (cs : List Nat) (acc : GraphState × List Nat),
        coreOf ((cs.foldl
          (fun (acc : GraphState × List Nat) child =>
            if isCheckpoint acc.1 child then acc
            else
              match alookup acc.1.subtapes child with
              | some _ => acc
              | none =>
                let st2 := createSubtape fuel acc.1 child
                let ctape := (alookup st2.subtapes child).getD []
                ({ st2 with subtapes := ainsert st2.subtapes child [] }
                , acc.2 ++ ctape)) acc).1) = coreOf acc.1 := by
      intro cs
      induction cs with
      | nil => intro acc; rfl
      | cons c rest ihc =>
        intro acc
        simp only [List.foldl]
        rw [ihc]
        split
        · rfl
        · split
          · rfl
          · dsimp only
            rw [coreOf_subtapesSet, ihf]
    dsimp only
    rw [coreOf_subtapesSet, hfold]

/-- Generic frame lemma: a fold whose step preserves a projection preserves it
overall. -/
theorem foldFrame {α β γ : Type} (g : β → γ) (f : β → α → β)
    (hstep : ∀ b a, g (f b a) = g b) :
    ∀ (l : List α) (b : β), g (l.foldl f b) = g b := by
  intro l
  induction l with
  | nil => intro b; rfl
  | cons a t ih =>
    intro b
    simp only [List.foldl]
    rw [ih, hstep]

/-- Generic invariant lemma for folds. -/
theorem foldInv {α β : Type} (Inv : β → Prop) (f : β → α → β) (P : α → Prop)
    (l : List α) (hstep : ∀ b a, P a → Inv b → Inv (f b a)) :
    ∀ b, (∀ a ∈ l, P a) → Inv b → Inv (l.foldl f b) := by
  induction l with
  | nil => intro b _ h; exact h
  | cons a t ih =>
    intro b hP h
    exact ih _ (fun x hx => hP x (List.mem_cons_of_mem _ hx))
      (hstep b a (hP a (List.mem_cons_self _ _)) h)

theorem subtapeBound_congr (s s' : GraphState)
    (h : s'.subtapes = s.subtapes) (hb : SubtapeBound s) : SubtapeBound s' := by
  intro v l hl
  rw [h] at hl
  exact hb v l hl

theorem subtapeBound_insert (st : GraphState) (v : Nat) (l : List Nat)
    (hb : SubtapeBound st) (hl : ∀ x ∈ l, x ≤ v) :
    SubtapeBound { st with subtapes := ainsert st.subtapes v l } := by
  intro u lu hu x hx
  by_cases huv : u = v
  · subst huv
    rw [show ({ st with subtapes := ainsert st.subtapes u l } :
        GraphState).subtapes = ainsert st.subtapes u l from rfl,
      alookup_ainsert_self] at hu
    injection hu with hu
    subst hu
    exact hl x hx
  · rw [show ({ st with subtapes := ainsert st.subtapes v l } :
        GraphState).subtapes = ainsert st.subtapes v l from rfl,
      alookup_ainsert_ne _ _ _ _ huv] at hu
    exact hb u lu hu x hx

theorem createSubtape_arena (fuel : Nat) (st : GraphState) (ref : Nat) :
    (createSubtape fuel st ref).arena = st.arena :=
  congrArg (fun t => t.1) (createSubtape_core fuel st ref)

theorem createSubtape_bound (fuel : Nat) :
    ∀ (st : GraphState) (ref : Nat), ChildrenLt st.arena → SubtapeBound st →
    SubtapeBound (createSubtape fuel st ref) := by
  induction fuel with
  | zero => intro st ref _ hb; exact hb
  | succ fuel ihf =>
    intro st ref hlt hb
    unfold createSubtape
    dsimp only
    have hstep : ∀ (acc : GraphState × List Nat) (child : Nat),
        child < ref →
        (SubtapeBound acc.1 ∧ (∀ x ∈ acc.2, x < ref) ∧
          acc.1.arena = st.arena) →
        (SubtapeBound ((fun (acc : GraphState × List Nat) child =>
            if isCheckpoint acc.1 child then acc
            else
              match alookup acc.1.subtapes child with
              | some _ => acc
              | none =>
                let st2 := createSubtape fuel acc.1 child
                let ctape := (alookup st2.subtapes child).getD []
                ({ st2 with subtapes := ainsert st2.subtapes child [] }
                , acc.2 ++ ctape)) acc child).1 ∧
          (∀ x ∈ ((fun (acc : GraphState × List Nat) child =>
            if isCheckpoint acc.1 child then acc
            else
              match alookup acc.1.subtapes child with
              | some _ => acc
              | none =>
                let st2 := createSubtape fuel acc.1 child
                let ctape := (alookup st2.subtapes child).getD []
                ({ st2 with subtapes := ainsert st2.subtapes child [] }
                , acc.2 ++ ctape)) acc child).2, x < ref) ∧
          ((fun (acc : GraphState × List Nat) child =>
            if isCheckpoint acc.1 child then acc
            else
              match alookup acc.1.subtapes child with
              | some _ => acc
              | none =>
                let st2 := createSubtape fuel acc.1 child
                let ctape := (alookup st2.subtapes child).getD []
                ({ st2 with subtapes := ainsert st2.subtapes child [] }
                , acc.2 ++ ctape)) acc child).1.arena = st.arena) := by
      intro acc child hcr hInv
      obtain ⟨hb1, hb2, ha⟩ := hInv
      dsimp only
      split
      · exact ⟨hb1, hb2, ha⟩
      · split
        · exact ⟨hb1, hb2, ha⟩
        · have hbsub : SubtapeBound (createSubtape fuel acc.1 child) :=
            ihf acc.1 child (ha ▸ hlt) hb1
          have hactape : ∀ x ∈ (alookup
              (createSubtape fuel acc.1 child).subtapes child).getD [],
              x < ref := by
            cases halo : alookup (createSubtape fuel acc.1 child).subtapes
                child with
            | none => simp
            | some lc =>
              intro x hx
              simp only [Option.getD_some] at hx
              exact Nat.lt_of_le_of_lt (hbsub child lc halo x hx) hcr
          refine ⟨subtapeBound_insert _ _ _ hbsub (by simp), ?_, ?_⟩
          · intro x hx
            rcases List.mem_append.1 hx with h2 | h2
            · exact hb2 x h2
            · exact hactape x h2
          · show (createSubtape fuel acc.1 child).arena = st.arena
            rw [createSubtape_arena, ha]
    have hchildren : ∀ c ∈ (nodeAt st ref).children, c < ref :=
      fun c hc => hlt ref c hc
    have hfold := foldInv
      (fun (p : GraphState × List Nat) => SubtapeBound p.1 ∧
        (∀ x ∈ p.2, x < ref) ∧ p.1.arena = st.arena)
      (fun (acc : GraphState × List Nat) child =>
        if isCheckpoint acc.1 child then acc
        else
          match alookup acc.1.subtapes child with
          | some _ => acc
          | none =>
            let st2 := createSubtape fuel acc.1 child
            let ctape := (alookup st2.subtapes child).getD []
            ({ st2 with subtapes := ainsert st2.subtapes child [] }
            , acc.2 ++ ctape))
      (fun c => c < ref) (nodeAt st ref).children hstep (st, [])
      hchildren ⟨hb, by simp, rfl⟩
    obtain ⟨hbF, hxF, haF⟩ := hfold
    refine subtapeBound_insert _ _ _ hbF ?_
    intro x hx
    split at hx
    · exact Nat.le_of_lt (hxF x hx)
    · rcases List.mem_append.1 hx with h2 | h2
      · exact Nat.le_of_lt (hxF x h2)
      · simp only [List.mem_singleton] at h2
        exact Nat.le_of_eq h2

theorem coreOf_markCheckpoint (st : GraphState) (r : Nat) :
    coreOf (markCheckpoint st r) = coreOf st := rfl

theorem planCheckpoints_core (st : GraphState) :
    coreOf (planCheckpoints st) = coreOf st := by
  unfold planCheckpoints
  rw [foldFrame coreOf _ (fun s top => by
      split
      · dsimp only
        rw [coreOf_subtapesSet, foldFrame coreOf markCheckpoint
          coreOf_markCheckpoint]
      · rfl),
    foldFrame coreOf _ (fun s v => by
      split
      · exact createSubtape_core _ _ _
      · rfl),
    foldFrame coreOf markCheckpoint coreOf_markCheckpoint]

theorem planCheckpoints_bound (st : GraphState) (hlt : ChildrenLt st.arena)
    (hb : SubtapeBound st) : SubtapeBound (planCheckpoints st) := by
  unfold planCheckpoints
  have hInv1 := foldInv
    (fun s : GraphState => SubtapeBound s ∧ s.arena = st.arena)
    markCheckpoint (fun _ => True) st.topNodes
    (fun s r _ hI => ⟨subtapeBound_congr s _ rfl hI.1, hI.2⟩)
    st (fun _ _ => trivial) ⟨hb, rfl⟩
  have hInv2 := foldInv
    (fun s : GraphState => SubtapeBound s ∧ s.arena = st.arena)
    (fun s v => if isCheckpoint s v then
      createSubtape (s.arena.length + 1) s v else s)
    (fun _ => True) (st.topNodes.foldl markCheckpoint st).nodesBackward.reverse
    (fun s v _ hI => by
      dsimp only
      split
      · exact ⟨createSubtape_bound _ s v (hI.2 ▸ hlt) hI.1,
          by rw [createSubtape_arena, hI.2]⟩
      · exact hI)
    (st.topNodes.foldl markCheckpoint st) (fun _ _ => trivial) hInv1
  have hInv3 := foldInv
    (fun s : GraphState => SubtapeBound s ∧ s.arena = st.arena)
    (fun s top =>
      match alookup s.subtapes top with
      | some tape =>
        let s1 := tape.foldl markCheckpoint s
        { s1 with subtapes := ainsert s1.subtapes top [] }
      | none => s)
    (fun _ => True)
    ((st.topNodes.foldl markCheckpoint st).nodesBackward.reverse.foldl
      (fun s v => if isCheckpoint s v then
        createSubtape (s.arena.length + 1) s v else s)
      (st.topNodes.foldl markCheckpoint st)).topNodes
    (fun s top _ hI => by
      dsimp only
      split
      next tape heq =>
        have hsub : (tape.foldl markCheckpoint s).subtapes = s.subtapes :=
          foldFrame (fun s : GraphState => s.subtapes) markCheckpoint
            (fun _ _ => rfl) _ s
        have harena2 : (tape.foldl markCheckpoint s).arena = s.arena :=
          foldFrame (fun s : GraphState => s.arena) markCheckpoint
            (fun _ _ => rfl) _ s
        exact ⟨subtapeBound_insert (tape.foldl markCheckpoint s) top []
            (subtapeBound_congr s _ hsub hI.1) (by simp),
          by
            show (tape.foldl markCheckpoint s).arena = st.arena
            rw [harena2, hI.2]⟩
      · exact hI)
    ((st.topNodes.foldl markCheckpoint st).nodesBackward.reverse.foldl
      (fun s v => if isCheckpoint s v then
        createSubtape (s.arena.length + 1) s v else s)
      (st.topNodes.foldl markCheckpoint st))
    (fun _ _ => trivial) hInv2
  exact hInv3.1

theorem arena_of_nonGrad {s s' : GraphState}
    (h : nonGradOf s' = nonGradOf s) : s'.arena = s.arena :=
  congrArg (fun t => t.1) h

theorem subtapes_of_nonGrad {s s' : GraphState}
    (h : nonGradOf s' = nonGradOf s) : s'.subtapes = s.subtapes :=
  congrArg (fun t => t.2.2.2.2.1) h

theorem inferenceOnly_of_nonGrad {s s' : GraphState}
    (h : nonGradOf s' = nonGradOf s) : s'.inferenceOnly = s.inferenceOnly :=
  congrArg (fun t => t.2.2.2.2.2.2.1) h

theorem checkpointing_of_nonGrad {s s' : GraphState}
    (h : nonGradOf s' = nonGradOf s) : s'.checkpointing = s.checkpointing :=
  congrArg (fun t => t.2.2.2.2.2.2.2) h

theorem arena_of_gradCtx {s s' : GraphState}
    (h : gradCtx s' = gradCtx s) : s'.arena = s.arena :=
  congrArg (fun t => t.1) h

theorem grads_of_gradCtx {s s' : GraphState}
    (h : gradCtx s' = gradCtx s) : s'.grads = s.grads :=
  congrArg (fun t => t.2.1) h

theorem paramGrads_of_gradCtx {s s' : GraphState}
    (h : gradCtx s' = gradCtx s) : s'.paramGrads = s.paramGrads :=
  congrArg (fun t => t.2.2) h

theorem getVal_congr_nonGrad {s s' : GraphState}
    (h : nonGradOf s' = nonGradOf s) (r : Nat) : getVal s' r = getVal s r := by
  have h1 := arena_of_nonGrad h
  have h2 : s'.vals = s.vals := congrArg (fun t => t.2.1) h
  have h3 : s'.cacheVals = s.cacheVals := congrArg (fun t => t.2.2.1) h
  have h4 : s'.paramVals = s.paramVals := congrArg (fun t => t.2.2.2.1) h
  unfold getVal nodeAt
  rw [h1, h2, h3, h4]

theorem getGrad_congr_gradCtx {s s' : GraphState}
    (h : gradCtx s' = gradCtx s) (r : Nat) : getGrad s' r = getGrad s r := by
  have h1 := arena_of_gradCtx h
  have h2 := grads_of_gradCtx h
  have h3 := paramGrads_of_gradCtx h
  unfold getGrad nodeAt
  rw [h1, h2, h3]

theorem nonGradOf_setGrad (st : GraphState) (r : Nat) (g : Int) :
    nonGradOf (setGrad st r g) = nonGradOf st := by
  unfold setGrad
  split <;> rfl

theorem setGrad_lockstep {sA sB : GraphState} (h : gradCtx sB = gradCtx sA)
    (r : Nat) (g : Int) : gradCtx (setGrad sB r g) = gradCtx (setGrad sA r g)
    := by
  have h1 := arena_of_gradCtx h
  have h2 := grads_of_gradCtx h
  have h3 := paramGrads_of_gradCtx h
  unfold setGrad
  rw [show nodeAt sB r = nodeAt sA r from by unfold nodeAt; rw [h1]]
  split
  · unfold gradCtx
    dsimp only
    rw [h1, h2, h3]
  · unfold gradCtx
    dsimp only
    rw [h1, h2, h3]

theorem nonGradOf_saz (st : GraphState) (r : Nat) :
    nonGradOf (set_zero_adjoint st r).1 = nonGradOf st := by
  unfold set_zero_adjoint
  split
  · rfl
  · exact nonGradOf_setGrad _ _ _

theorem saz_lockstep {sA sB : GraphState} (h : gradCtx sB = gradCtx sA)
    (r : Nat) :
    gradCtx (set_zero_adjoint sB r).1 = gradCtx (set_zero_adjoint sA r).1 := by
  cases hgA : getGrad sA r with
  | some g =>
    have hgB : getGrad sB r = some g := by rw [getGrad_congr_gradCtx h, hgA]
    unfold set_zero_adjoint
    rw [hgA, hgB]
    exact h
  | none =>
    have hgB : getGrad sB r = none := by rw [getGrad_congr_gradCtx h, hgA]
    unfold set_zero_adjoint
    rw [hgA, hgB]
    exact setGrad_lockstep h r 0

theorem nonGradOf_init_dependent (st : GraphState) (r : Nat) :
    nonGradOf (init_dependent st r) = nonGradOf st := by
  unfold init_dependent
  split
  · rfl
  · exact nonGradOf_setGrad _ _ _

theorem init_dependent_lockstep {sA sB : GraphState}
    (h : gradCtx sB = gradCtx sA) (r : Nat) :
    gradCtx (init_dependent sB r) = gradCtx (init_dependent sA r) := by
  cases hgA : getGrad sA r with
  | some g =>
    have hgB : getGrad sB r = some g := by rw [getGrad_congr_gradCtx h, hgA]
    unfold init_dependent
    rw [hgA, hgB]
    exact h
  | none =>
    have hgB : getGrad sB r = none := by rw [getGrad_congr_gradCtx h, hgA]
    unfold init_dependent
    rw [hgA, hgB]
    exact setGrad_lockstep h r 1

theorem nodeAt_congr_get {s s' : GraphState} (r : Nat)
    (h : s'.arena.get? r = s.arena.get? r) : nodeAt s' r = nodeAt s r := by
  unfold nodeAt
  rw [h]

theorem arena_get_set_ne (l : List NodeData) (v : Nat) (n : NodeData)
    (r : Nat) (h : r ≠ v) : (l.set v n).get? r = l.get? r := by
  simp only [List.get?_eq_getElem?]
  rw [List.getElem?_set_ne (fun he => h he.symm)]

theorem nodeAt_clearChildren_type (st : GraphState) (v r : Nat) :
    (nodeAt (clearChildren st v) r).type = (nodeAt st r).type ∧
    (nodeAt (clearChildren st v) r).memoize = (nodeAt st r).memoize := by
  unfold clearChildren nodeAt
  dsimp only
  by_cases hr : r = v
  · subst hr
    by_cases hlen : r < st.arena.length
    · simp only [List.get?_eq_getElem?, List.getElem?_set_self,
        hlen, dite_eq_ite]
      simp [List.getElem?_eq_getElem hlen]
    · rw [List.set_eq_of_length_le (Nat.le_of_not_lt hlen)]
      exact ⟨rfl, rfl⟩
  · rw [arena_get_set_ne _ _ _ _ hr]
    exact ⟨rfl, rfl⟩

theorem getVal_clearChildren (st : GraphState) (v r : Nat) :
    getVal (clearChildren st v) r = getVal st r := by
  obtain ⟨ht, hm⟩ := nodeAt_clearChildren_type st v r
  unfold getVal
  dsimp only
  rw [show (clearChildren st v).vals = st.vals from rfl,
    show (clearChildren st v).cacheVals = st.cacheVals from rfl,
    show (clearChildren st v).paramVals = st.paramVals from rfl, ht, hm]

theorem getGrad_clearChildren (st : GraphState) (v r : Nat) :
    getGrad (clearChildren st v) r = getGrad st r := by
  obtain ⟨ht, _⟩ := nodeAt_clearChildren_type st v r
  unfold getGrad
  rw [show (clearChildren st v).grads = st.grads from rfl,
    show (clearChildren st v).paramGrads = st.paramGrads from rfl, ht]

theorem clearChildren_pair {sA sB : GraphState} (h : sB.arena = sA.arena)
    (v : Nat) : (clearChildren sB v).arena = (clearChildren sA v).arena := by
  unfold clearChildren nodeAt
  dsimp only
  rw [h]

theorem valsConsistent_congr (arena : List NodeData) {s s' : GraphState}
    (h : ∀ r, getVal s' r = getVal s r) (hc : ValsConsistent arena s) :
    ValsConsistent arena s' := by
  intro r x hx
  rw [h r] at hx
  have h2 := hc r x hx
  unfold expectedVal at h2 ⊢
  dsimp only at h2 ⊢
  rw [childVals_congr s s' _ (fun c _ => h c)]
  exact h2

theorem valsAgree_congr {sA sB sA' sB' : GraphState}
    (hA : ∀ r, getVal sA' r = getVal sA r)
    (hB : ∀ r, getVal sB' r = getVal sB r)
    (h : valsAgree sA sB) : valsAgree sA' sB' := by
  intro r x y hx hy
  rw [hA r] at hx
  rw [hB r] at hy
  exact h r x y hx hy

/-- Replaying a subtape as a final forward pass leaves the control frame
unchanged and only writes values that agree with a consistent reference
state's values. -/
theorem forwardTapeRun_replay (arena0 : List NodeData) (stA0 : GraphState)
    (bound : Nat) (hlt : ChildrenLt arena0)
    (hcons : ValsConsistent arena0 stA0) (tape : List Nat) :
    ∀ (sB sB' : GraphState),
    sB.inferenceOnly = false →
    (∀ u ∈ tape, u ≤ bound) →
    (∀ r, r ≤ bound → sB.arena.get? r = arena0.get? r) →
    valsAgree stA0 sB →
    forwardTapeRun sB tape true = Except.ok sB' →
    ctrlOf sB' = ctrlOf sB ∧ valsAgree stA0 sB' := by
  induction tape with
  | nil =>
    intro sB sB' _ _ _ hag h
    unfold forwardTapeRun at h
    injection h with h
    subst h
    exact ⟨rfl, hag⟩
  | cons u rest ih =>
    intro sB sB' hInf htape hintact hag h
    unfold forwardTapeRun at h
    split at h
    · exact Except.noConfusion h
    next sB1 heq =>
      have hub : u ≤ bound := htape u (by simp)
      have hnode : nodeAt sB u = (arena0.get? u).getD default := by
        unfold nodeAt
        rw [hintact u hub]
      have hltu : ∀ c ∈ (nodeAt sB u).children, c < u := by
        rw [hnode]
        exact fun c hc => hlt u c hc
      obtain ⟨hctrl, args, hargs, hsub, hexact⟩ :=
        forwardStep_ok_spec sB true u sB1 heq hInf hltu
      obtain ⟨hvu, hne⟩ := hexact (bool_and_not_true _)
      have hag1 : valsAgree stA0 sB1 := by
        intro r x y hx hy
        by_cases hr : r = u
        · subst hr
          rw [hvu] at hy
          injection hy with hy
          have hx0 := hcons r x hx
          unfold expectedVal at hx0
          dsimp only at hx0
          split at hx0
          next argsA hargsA =>
            injection hx0 with hx0
            rw [hnode] at hargs
            have hA : argsA = args :=
              childVals_agree stA0 sB _ hag argsA args hargsA hargs
            rw [← hy, ← hx0, hA, hnode]
          · exact Option.noConfusion hx0
        · rw [hne r hr] at hy
          exact hag r x y hx hy
      have harena1 : sB1.arena = sB.arena := arena_of_ctrl hctrl
      obtain ⟨hctrl2, hag2⟩ := ih sB1 sB'
        (by rw [inferenceOnly_of_ctrl hctrl, hInf])
        (fun u2 h2 => htape u2 (List.mem_cons_of_mem _ h2))
        (fun r hr => by rw [harena1]; exact hintact r hr)
        hag1 h
      exact ⟨hctrl2.trans hctrl, hag2⟩

theorem contributions_lockstep (sA sB : GraphState) (v : Nat)
    (hnode : nodeAt sB v = nodeAt sA v)
    (hg : getGrad sB v = getGrad sA v)
    (hag : valsAgree sA sB) (cA cB : List (Nat × Int))
    (hA : contributions sA v = Except.ok cA)
    (hB : contributions sB v = Except.ok cB) : cA = cB := by
  unfold contributions at hA hB
  dsimp only at hA hB
  rw [hnode] at hB
  split at hA
  · exact Except.noConfusion hA
  next g heqg =>
    have heqgB : getGrad sB v = some g := by rw [hg, heqg]
    rw [heqgB] at hB
    dsimp only at hB
    cases hop : (nodeAt sA v).op with
    | leaf i =>
      rw [hop] at hA hB
      dsimp only at hA hB
      injection hA with hA
      injection hB with hB
      rw [← hA, ← hB]
    | scale k =>
      rw [hop] at hA hB
      dsimp only at hA hB
      injection hA with hA
      injection hB with hB
      rw [← hA, ← hB]
    | add2 =>
      rw [hop] at hA hB
      dsimp only at hA hB
      injection hA with hA
      injection hB with hB
      rw [← hA, ← hB]
    | mul2 =>
      rw [hop] at hA hB
      dsimp only at hA hB
      rcases hch : (nodeAt sA v).children with _ | ⟨c0, _ | ⟨c1, _ | ⟨c2, rest⟩⟩⟩
      · rw [hch] at hA hB
        dsimp only at hA hB
        injection hA with hA
        injection hB with hB
        rw [← hA, ← hB]
      · rw [hch] at hA hB
        dsimp only at hA hB
        injection hA with hA
        injection hB with hB
        rw [← hA, ← hB]
      · rw [hch] at hA hB
        dsimp only at hA hB
        split at hA
        next x0 x1 hx0 hx1 =>
          split at hB
          next y0 y1 hy0 hy1 =>
            injection hA with hA
            injection hB with hB
            rw [← hA, ← hB, hag c0 x0 y0 hx0 hy0, hag c1 x1 y1 hx1 hy1]
          · exact Except.noConfusion hB
        · exact Except.noConfusion hA
      · rw [hch] at hA hB
        dsimp only at hA hB
        injection hA with hA
        injection hB with hB
        rw [← hA, ← hB]

theorem accumulate_lockstep (contribs : List (Nat × Int)) :
    ∀ (sA sB : GraphState) (rA rB : GraphState × List BEvent),
    gradCtx sB = gradCtx sA →
    accumulate sA contribs = Except.ok rA →
    accumulate sB contribs = Except.ok rB →
    nonGradOf rA.1 = nonGradOf sA ∧ nonGradOf rB.1 = nonGradOf sB ∧
    gradCtx rB.1 = gradCtx rA.1 := by
  induction contribs with
  | nil =>
    intro sA sB rA rB h hA hB
    unfold accumulate at hA hB
    injection hA with hA
    injection hB with hB
    rw [← hA, ← hB]
    exact ⟨rfl, rfl, h⟩
  | cons ca rest ih =>
    intro sA sB rA rB h hA hB
    unfold accumulate at hA hB
    have hnode : nodeAt sB ca.1 = nodeAt sA ca.1 :=
      nodeAt_eq_of_arena (arena_of_gradCtx h) ca.1
    rw [hnode] at hB
    split at hA
    next hcond =>
      rw [if_pos hcond] at hB
      split at hA
      · exact Except.noConfusion hA
      next g heqg =>
        have heqgB : getGrad sB ca.1 = some g := by
          rw [getGrad_congr_gradCtx h, heqg]
        rw [heqgB] at hB
        dsimp only at hB
        split at hA
        · exact Except.noConfusion hA
        next st1A evsA heqrA =>
          split at hB
          · exact Except.noConfusion hB
          next st1B evsB heqrB =>
            injection hA with hA
            injection hB with hB
            obtain ⟨f1, f2, f3⟩ := ih (setGrad sA ca.1 (g + ca.2))
              (setGrad sB ca.1 (g + ca.2)) (st1A, evsA) (st1B, evsB)
              (setGrad_lockstep h ca.1 (g + ca.2)) heqrA heqrB
            rw [← hA, ← hB]
            refine ⟨?_, ?_, f3⟩
            · show nonGradOf st1A = nonGradOf sA
              rw [f1]
              exact nonGradOf_setGrad _ _ _
            · show nonGradOf st1B = nonGradOf sB
              rw [f2]
              exact nonGradOf_setGrad _ _ _
    next hcond =>
      rw [if_neg hcond] at hB
      exact ih sA sB rA rB h hA hB

theorem nodeBackward_lockstep (sA sB : GraphState) (v : Nat)
    (rA rB : GraphState × List BEvent) (h : gradCtx sB = gradCtx sA)
    (hag : valsAgree sA sB)
    (hA : nodeBackward sA v = Except.ok rA)
    (hB : nodeBackward sB v = Except.ok rB) :
    nonGradOf rA.1 = nonGradOf sA ∧ nonGradOf rB.1 = nonGradOf sB ∧
    gradCtx rB.1 = gradCtx rA.1 := by
  unfold nodeBackward at hA hB
  split at hA
  · exact Except.noConfusion hA
  next cA heqcA =>
    split at hB
    · exact Except.noConfusion hB
    next cB heqcB =>
      have hceq : cA = cB := contributions_lockstep sA sB v
        (nodeAt_eq_of_arena (arena_of_gradCtx h) v)
        (getGrad_congr_gradCtx h v) hag cA cB heqcA heqcB
      subst hceq
      exact accumulate_lockstep cA sA sB rA rB h hA hB

theorem zeroFold_frame (cs : List Nat) (p : GraphState × List BEvent) :
    nonGradOf ((cs.foldl
      (fun (acc : GraphState × List BEvent) c =>
        if ((nodeAt acc.1 c).trainable && (nodeAt acc.1 c).type != "param")
            = true then
          ((set_zero_adjoint acc.1 c).1,
            acc.2 ++ if (set_zero_adjoint acc.1 c).2 = true
              then [BEvent.zeroed c] else [])
        else acc) p).1) = nonGradOf p.1 := by
  refine foldFrame (fun (q : GraphState × List BEvent) => nonGradOf q.1) _
    (fun q c => ?_) cs p
  dsimp only
  split
  · exact nonGradOf_saz _ _
  · rfl

theorem zeroFold_lockstep (cs : List Nat) :
    ∀ (pA pB : GraphState × List BEvent),
    gradCtx pB.1 = gradCtx pA.1 →
    gradCtx ((cs.foldl
      (fun (acc : GraphState × List BEvent) c =>
        if ((nodeAt acc.1 c).trainable && (nodeAt acc.1 c).type != "param")
            = true then
          ((set_zero_adjoint acc.1 c).1,
            acc.2 ++ if (set_zero_adjoint acc.1 c).2 = true
              then [BEvent.zeroed c] else [])
        else acc) pB).1) =
    gradCtx ((cs.foldl
      (fun (acc : GraphState × List BEvent) c =>
        if ((nodeAt acc.1 c).trainable && (nodeAt acc.1 c).type != "param")
            = true then
          ((set_zero_adjoint acc.1 c).1,
            acc.2 ++ if (set_zero_adjoint acc.1 c).2 = true
              then [BEvent.zeroed c] else [])
        else acc) pA).1) := by
  induction cs with
  | nil => intro pA pB h; exact h
  | cons c rest ih =>
    intro pA pB h
    simp only [List.foldl]
    apply ih
    have hnode : nodeAt pB.1 c = nodeAt pA.1 c :=
      nodeAt_eq_of_arena (arena_of_gradCtx h) c
    rw [hnode]
    by_cases hcond : ((nodeAt pA.1 c).trainable
        && (nodeAt pA.1 c).type != "param") = true
    · rw [if_pos hcond, if_pos hcond]
      exact saz_lockstep h c
    · rw [if_neg hcond, if_neg hcond]
      exact h

theorem gradCtx_of_ctrl {s s' : GraphState} (h : ctrlOf s' = ctrlOf s) :
    gradCtx s' = gradCtx s := by
  have h1 : s'.arena = s.arena := congrArg (fun t => t.1) h
  have h2 : s'.grads = s.grads := congrArg (fun t => t.2.1) h
  have h3 : s'.paramGrads = s.paramGrads := congrArg (fun t => t.2.2.1) h
  unfold gradCtx
  rw [h1, h2, h3]

theorem subtapes_of_ctrl {s s' : GraphState} (h : ctrlOf s' = ctrlOf s) :
    s'.subtapes = s.subtapes :=
  congrArg (fun t => t.2.2.2.1) h

theorem backwardTail_lockstep (v : Nat)
    (st2A st2B st3A st3B : GraphState) (evsA evsB : List BEvent) (tr : Bool)
    (hgctx : gradCtx st2B = gradCtx st2A)
    (hag : valsAgree st2A st2B)
    (hA : (if tr = true then nodeBackward st2A v else Except.ok (st2A, []))
      = Except.ok (st3A, evsA))
    (hB : (if tr = true then nodeBackward st2B v else Except.ok (st2B, []))
      = Except.ok (st3B, evsB)) :
    nonGradOf st3A = nonGradOf st2A ∧ nonGradOf st3B = nonGradOf st2B ∧
    gradCtx st3B = gradCtx st3A := by
  by_cases htr : tr = true
  · rw [if_pos htr] at hA hB
    exact nodeBackward_lockstep st2A st2B v (st3A, evsA) (st3B, evsB) hgctx
      hag hA hB
  · rw [if_neg htr] at hA hB
    injection hA with hA
    injection hB with hB
    injection hA with hA1 hA2
    injection hB with hB1 hB2
    rw [← hA1, ← hB1]
    exact ⟨rfl, rfl, hgctx⟩

theorem backwardStep_lockstep (arena0 : List NodeData) (v : Nat)
    (sA sB : GraphState) (rA rB : GraphState × List BEvent)
    (hlt0 : ChildrenLt arena0)
    (hckA : sA.checkpointing = false)
    (hinfB : sB.inferenceOnly = false)
    (harena : sB.arena = sA.arena)
    (hgr : sB.grads = sA.grads)
    (hpg : sB.paramGrads = sA.paramGrads)
    (hag : valsAgree sA sB)
    (hcons : ValsConsistent arena0 sA)
    (hintact : ∀ r, r ≤ v → sA.arena.get? r = arena0.get? r)
    (hbound : SubtapeBound sB)
    (hA : backwardStep sA v = Except.ok rA)
    (hB : backwardStep sB v = Except.ok rB) :
    rB.1.arena = rA.1.arena ∧
    rB.1.grads = rA.1.grads ∧
    rB.1.paramGrads = rA.1.paramGrads ∧
    (∀ r, getVal rA.1 r = getVal sA r) ∧
    valsAgree rA.1 rB.1 ∧
    rA.1.checkpointing = sA.checkpointing ∧
    rB.1.inferenceOnly = sB.inferenceOnly ∧
    SubtapeBound rB.1 ∧
    (∀ r, r ≠ v → rA.1.arena.get? r = sA.arena.get? r) := by
  have hgctx : gradCtx sB = gradCtx sA := by
    unfold gradCtx
    rw [harena, hgr, hpg]
  have hnodeBA : nodeAt sB v = nodeAt sA v := nodeAt_eq_of_arena harena v
  unfold backwardStep at hA hB
  dsimp only at hA hB
  rw [hnodeBA] at hB
  have hfrA := zeroFold_frame (nodeAt sA v).children (sA, [])
  have hfrB := zeroFold_frame (nodeAt sA v).children (sB, [])
  have hzl := zeroFold_lockstep (nodeAt sA v).children (sA, []) (sB, []) hgctx
  dsimp only at hfrA hfrB hzl
  rw [if_neg (fun hcontra => Bool.false_ne_true
    (((checkpointing_of_nonGrad hfrA).trans hckA).symm.trans hcontra))] at hA
  dsimp only at hA
  split at hA
  · exact Except.noConfusion hA
  next st3A evsA heqA2 =>
    injection hA with hA1
    by_cases hckB : sB.checkpointing = true
    · rw [if_pos ((checkpointing_of_nonGrad hfrB).trans hckB)] at hB
      rw [subtapes_of_nonGrad hfrB] at hB
      cases halo : alookup sB.subtapes v with
      | none =>
        rw [halo] at hB
        dsimp only at hB
        split at hB
        · exact Except.noConfusion hB
        next st3B evsB heqB2 =>
          injection hB with hB1
          obtain ⟨h3A, h3B, h3gc⟩ := backwardTail_lockstep v _ _ st3A st3B
            evsA evsB (nodeAt sA v).trainable hzl
            (valsAgree_congr (getVal_congr_nonGrad hfrA)
              (getVal_congr_nonGrad hfrB) hag)
            heqA2 heqB2
          subst hA1
          subst hB1
          have hg2 := grads_of_gradCtx h3gc
          have hpg2 := paramGrads_of_gradCtx h3gc
          refine ⟨clearChildren_pair (arena_of_gradCtx h3gc) v, hg2, hpg2,
            fun r => (getVal_clearChildren st3A v r).trans
              ((getVal_congr_nonGrad h3A r).trans
                (getVal_congr_nonGrad hfrA r)),
            valsAgree_congr (fun r => getVal_clearChildren st3A v r)
              (fun r => getVal_clearChildren st3B v r)
              (valsAgree_congr (getVal_congr_nonGrad h3A)
                (getVal_congr_nonGrad h3B)
                (valsAgree_congr (getVal_congr_nonGrad hfrA)
                  (getVal_congr_nonGrad hfrB) hag)),
            (checkpointing_of_nonGrad h3A).trans
              (checkpointing_of_nonGrad hfrA),
            (inferenceOnly_of_nonGrad h3B).trans
              (inferenceOnly_of_nonGrad hfrB),
            subtapeBound_congr st3B _ rfl
              (subtapeBound_congr sB st3B
                ((subtapes_of_nonGrad h3B).trans (subtapes_of_nonGrad hfrB))
                hbound),
            fun r hr => (arena_get_set_ne st3A.arena v _ r hr).trans
              (by rw [arena_of_nonGrad h3A, arena_of_nonGrad hfrA])⟩
      | some tape =>
        rw [halo] at hB
        dsimp only at hB
        split at hB
        · exact Except.noConfusion hB
        next stMid heqrun =>
          split at heqrun
          · exact Except.noConfusion heqrun
          next st1 heqrun2 =>
          injection heqrun with hmid
          subst hmid
          obtain ⟨hctrlR, hagR⟩ := forwardTapeRun_replay arena0 sA v hlt0
            hcons tape
            ((List.foldl
              (fun (acc : GraphState × List BEvent) c =>
                if ((nodeAt acc.1 c).trainable
                    && (nodeAt acc.1 c).type != "param") = true then
                  ((set_zero_adjoint acc.1 c).1,
                    acc.2 ++ if (set_zero_adjoint acc.1 c).2 = true
                      then [BEvent.zeroed c] else [])
                else acc) (sB, []) (nodeAt sA v).children).1)
            st1
            ((inferenceOnly_of_nonGrad hfrB).trans hinfB)
            (hbound v tape halo)
            (by
              rw [arena_of_nonGrad hfrB, harena]
              exact hintact)
            (valsAgree_congr (fun r => rfl)
              (fun r => getVal_congr_nonGrad hfrB r) hag)
            heqrun2
          split at hB
          · exact Except.noConfusion hB
          next st3B evsB heqB2 =>
            injection hB with hB1
            obtain ⟨h3A, h3B, h3gc⟩ := backwardTail_lockstep v _
              { st1 with subtapes := ainsert st1.subtapes v [] } st3A st3B
              evsA evsB (nodeAt sA v).trainable
              ((gradCtx_of_ctrl hctrlR).trans hzl)
              (valsAgree_congr (getVal_congr_nonGrad hfrA)
                (fun r => (rfl :
                  getVal { st1 with
                    subtapes := ainsert st1.subtapes v [] } r
                  = getVal st1 r)) hagR)
              heqA2 heqB2
            subst hA1
            subst hB1
            have hg2 := grads_of_gradCtx h3gc
            have hpg2 := paramGrads_of_gradCtx h3gc
            refine ⟨clearChildren_pair (arena_of_gradCtx h3gc) v, hg2, hpg2,
              fun r => (getVal_clearChildren st3A v r).trans
                ((getVal_congr_nonGrad h3A r).trans
                  (getVal_congr_nonGrad hfrA r)),
              valsAgree_congr (fun r => getVal_clearChildren st3A v r)
                (fun r => getVal_clearChildren st3B v r)
                (valsAgree_congr (getVal_congr_nonGrad h3A)
                  (getVal_congr_nonGrad h3B)
                  (valsAgree_congr (getVal_congr_nonGrad hfrA)
                    (fun r => rfl) hagR)),
              (checkpointing_of_nonGrad h3A).trans
                (checkpointing_of_nonGrad hfrA),
              (inferenceOnly_of_nonGrad h3B).trans
                ((inferenceOnly_of_ctrl hctrlR).trans
                  (inferenceOnly_of_nonGrad hfrB)),
              subtapeBound_congr st3B _ rfl
                (subtapeBound_congr _ st3B (subtapes_of_nonGrad h3B)
                  (subtapeBound_insert st1 v []
                    (subtapeBound_congr sB st1
                      ((subtapes_of_ctrl hctrlR).trans
                        (subtapes_of_nonGrad hfrB)) hbound)
                    (by simp))),
              fun r hr => (arena_get_set_ne st3A.arena v _ r hr).trans
                (by rw [arena_of_nonGrad h3A, arena_of_nonGrad hfrA])⟩
    · rw [if_neg (fun hcontra => hckB
        ((checkpointing_of_nonGrad hfrB).symm.trans hcontra))] at hB
      dsimp only at hB
      split at hB
      · exact Except.noConfusion hB
      next st3B evsB heqB2 =>
        injection hB with hB1
        obtain ⟨h3A, h3B, h3gc⟩ := backwardTail_lockstep v _ _ st3A st3B
          evsA evsB (nodeAt sA v).trainable hzl
          (valsAgree_congr (getVal_congr_nonGrad hfrA)
            (getVal_congr_nonGrad hfrB) hag)
          heqA2 heqB2
        subst hA1
        subst hB1
        have hg2 := grads_of_gradCtx h3gc
        have hpg2 := paramGrads_of_gradCtx h3gc
        refine ⟨clearChildren_pair (arena_of_gradCtx h3gc) v, hg2, hpg2,
          fun r => (getVal_clearChildren st3A v r).trans
            ((getVal_congr_nonGrad h3A r).trans
              (getVal_congr_nonGrad hfrA r)),
          valsAgree_congr (fun r => getVal_clearChildren st3A v r)
            (fun r => getVal_clearChildren st3B v r)
            (valsAgree_congr (getVal_congr_nonGrad h3A)
              (getVal_congr_nonGrad h3B)
              (valsAgree_congr (getVal_congr_nonGrad hfrA)
                (getVal_congr_nonGrad hfrB) hag)),
          (checkpointing_of_nonGrad h3A).trans
            (checkpointing_of_nonGrad hfrA),
          (inferenceOnly_of_nonGrad h3B).trans
            (inferenceOnly_of_nonGrad hfrB),
          subtapeBound_congr st3B _ rfl
            (subtapeBound_congr sB st3B
              ((subtapes_of_nonGrad h3B).trans (subtapes_of_nonGrad hfrB))
              hbound),
          fun r hr => (arena_get_set_ne st3A.arena v _ r hr).trans
            (by rw [arena_of_nonGrad h3A, arena_of_nonGrad hfrA])⟩

/-- Lockstep simulation of the backward loop: with equal gradients, agreeing
values and a consistent non-checkpointing reference run, consuming the same
descending tape leaves both runs with equal gradient stores. -/
theorem backwardConsume_lockstep (arena0 : List NodeData) (rev : List Nat) :
    ∀ (sA sB : GraphState) (rA rB : GraphState × List BEvent),
    List.Pairwise (fun a b => b < a) rev →
    ChildrenLt arena0 →
    sA.checkpointing = false →
    sB.inferenceOnly = false →
    sB.arena = sA.arena →
    sB.grads = sA.grads →
    sB.paramGrads = sA.paramGrads →
    valsAgree sA sB →
    ValsConsistent arena0 sA →
    (∀ u ∈ rev, ∀ r, r ≤ u → sA.arena.get? r = arena0.get? r) →
    SubtapeBound sB →
    backwardConsume sA rev = Except.ok rA →
    backwardConsume sB rev = Except.ok rB →
    rB.1.grads = rA.1.grads ∧ rB.1.paramGrads = rA.1.paramGrads := by
  induction rev with
  | nil =>
    intro sA sB rA rB _ _ _ _ _ hgr hpg _ _ _ _ hA hB
    unfold backwardConsume at hA hB
    injection hA with hA
    injection hB with hB
    rw [← hA, ← hB]
    exact ⟨hgr, hpg⟩
  | cons v rest ih =>
    intro sA sB rA rB hpw hlt0 hckA hinfB harena hgr hpg hag hcons hintact
      hbound hA hB
    unfold backwardConsume at hA hB
    split at hA
    · exact Except.noConfusion hA
    next stA1 evs1 heqA =>
      split at hA
      · exact Except.noConfusion hA
      next stA2 evs2 heqA2 =>
        split at hB
        · exact Except.noConfusion hB
        next stB1 evs3 heqB =>
          split at hB
          · exact Except.noConfusion hB
          next stB2 evs4 heqB2 =>
            injection hA with hA
            injection hB with hB
            obtain ⟨k1, k2, k3, k4, k5, k6, k7, k8, k9⟩ :=
              backwardStep_lockstep arena0 v sA sB (stA1, evs1) (stB1, evs3) hlt0 hckA hinfB
                harena hgr hpg hag hcons
                (hintact v (List.mem_cons_self _ _)) hbound heqA heqB
            have hrel : ∀ u ∈ rest, u < v :=
              fun u hu => List.rel_of_pairwise_cons hpw hu
            obtain ⟨g1, g2⟩ := ih stA1 stB1 (stA2, evs2) (stB2, evs4)
              (List.Pairwise.sublist (List.sublist_cons_self _ _) hpw)
              hlt0
              (k6.trans hckA)
              (k7.trans hinfB)
              k1 k2 k3 k5
              (valsConsistent_congr arena0 k4 hcons)
              (fun u hu r hr =>
                (k9 r (Nat.ne_of_lt (Nat.lt_of_le_of_lt hr (hrel u hu)))).trans
                  (hintact v (List.mem_cons_self _ _) r
                    (Nat.le_of_lt (Nat.lt_of_le_of_lt hr (hrel u hu)))))
              k8 heqA2 heqB2
            rw [← hA, ← hB]
            exact ⟨g1, g2⟩

theorem paf_frame (st : GraphState) :
    pafFrame (paramsAllocateForward st) = pafFrame st := by
  unfold paramsAllocateForward
  exact foldFrame pafFrame _
    (fun b kv => by
      dsimp only
      split
      · rfl
      · rfl)
    st.paramsMap st

theorem paf_paramVals (st : GraphState) (hwf : paramsWfB st = true)
    (hpv : st.paramVals = []) :
    ∀ r x, alookup (paramsAllocateForward st).paramVals r = some x →
    ((st.arena.get? r).getD default).op = Op.leaf x ∧
    ((st.arena.get? r).getD default).children = [] := by
  unfold paramsAllocateForward
  have hInv := foldInv
    (fun s : GraphState => s.arena = st.arena ∧
      ∀ r x, alookup s.paramVals r = some x →
        ((st.arena.get? r).getD default).op = Op.leaf x ∧
        ((st.arena.get? r).getD default).children = [])
    (fun s kv =>
      match alookup s.paramVals kv.2 with
      | some _ => s
      | none =>
        let v0 :=
          match (nodeAt s kv.2).op with
          | Op.leaf i => i
          | _ => 0
        { s with paramVals := ainsert s.paramVals kv.2 v0 })
    (fun kv => kv ∈ st.paramsMap) st.paramsMap
    (fun s kv hkv hI => by
      dsimp only
      split
      · exact hI
      · dsimp only
        refine ⟨hI.1, ?_⟩
        intro r x hx
        by_cases hr : r = kv.2
        · subst hr
          rw [alookup_ainsert_self] at hx
          injection hx with hx
          have hwf2 := (List.all_eq_true.1 hwf) kv hkv
          have hnode : nodeAt s kv.2 = nodeAt st kv.2 := by
            unfold nodeAt
            rw [hI.1]
          cases hop : (nodeAt st kv.2).op with
          | leaf i =>
            rw [hop] at hwf2
            dsimp only at hwf2
            have hch : (nodeAt st kv.2).children = [] :=
              List.isEmpty_iff.1 hwf2
            rw [hnode, hop] at hx
            dsimp only at hx
            refine ⟨?_, hch⟩
            rw [show ((st.arena.get? kv.2).getD default) = nodeAt st kv.2
              from rfl, hop, ← hx]
          | scale k =>
            rw [hop] at hwf2
            dsimp only at hwf2
            exact Bool.noConfusion hwf2
          | add2 =>
            rw [hop] at hwf2
            dsimp only at hwf2
            exact Bool.noConfusion hwf2
          | mul2 =>
            rw [hop] at hwf2
            dsimp only at hwf2
            exact Bool.noConfusion hwf2
        · rw [alookup_ainsert_ne _ _ _ _ hr] at hx
          exact hI.2 r x hx)
    st (fun a ha => ha)
    ⟨rfl, by
      rw [hpv]
      intro r x hx
      exact Option.noConfusion hx⟩
  exact hInv.2

theorem valueOf_leaf (n : NodeData) (i : Int) (h : n.op = Op.leaf i)
    (args : List Int) : valueOf n args = i := by
  unfold valueOf
  rw [h]

theorem paf_consistent (st : GraphState) (hwf : paramsWfB st = true)
    (hv : st.vals = []) (hcv : st.cacheVals = []) (hpv : st.paramVals = []) :
    ValsConsistent st.arena (paramsAllocateForward st) := by
  have hfr := paf_frame st
  have harena : (paramsAllocateForward st).arena = st.arena :=
    congrArg (fun t => t.1) hfr
  have hvals : (paramsAllocateForward st).vals = st.vals :=
    congrArg (fun t => t.2.1) hfr
  have hcvals : (paramsAllocateForward st).cacheVals = st.cacheVals :=
    congrArg (fun t => t.2.2.1) hfr
  intro r x hx
  unfold getVal at hx
  dsimp only at hx
  rw [show nodeAt (paramsAllocateForward st) r = nodeAt st r from by
    unfold nodeAt; rw [harena]] at hx
  by_cases h1 : ((nodeAt st r).type == "param") = true
  · rw [if_pos h1] at hx
    obtain ⟨hop, hch⟩ := paf_paramVals st hwf hpv r x hx
    unfold expectedVal
    dsimp only
    rw [hch]
    rw [show childVals (paramsAllocateForward st) [] = Except.ok [] from rfl]
    dsimp only
    rw [valueOf_leaf _ _ hop]
  · rw [if_neg h1] at hx
    by_cases h2 : (nodeAt st r).memoize = true
    · rw [if_pos h2, hcvals, hcv] at hx
      exact Option.noConfusion hx
    · rw [if_neg h2, hvals, hv] at hx
      exact Option.noConfusion hx

/-- A fold whose step commutes with setting the checkpointing flag commutes
with it as a whole. -/
theorem foldl_flagCommute {α : Type} (f : GraphState → α → GraphState)
    (hstep : ∀ (s : GraphState) (a : α),
      f { s with checkpointing := true } a
      = { f s a with checkpointing := true }) :
    ∀ (l : List α) (s : GraphState),
      l.foldl f { s with checkpointing := true }
      = { l.foldl f s with checkpointing := true } := by
  intro l
  induction l with
  | nil => intro s; rfl
  | cons a t ih =>
    intro s
    simp only [List.foldl]
    rw [hstep]
    exact ih (f s a)

theorem paf_flag (st : GraphState) :
    paramsAllocateForward { st with checkpointing := true }
    = { paramsAllocateForward st with checkpointing := true } := by
  unfold paramsAllocateForward
  dsimp only
  exact foldl_flagCommute _
    (fun s kv => by
      dsimp only
      cases halo : alookup s.paramVals kv.2 with
      | some y => rfl
      | none => rfl)
    st.paramsMap st

theorem pab_nonGrad (st : GraphState) :
    nonGradOf (paramsAllocateBackward st) = nonGradOf st := by
  unfold paramsAllocateBackward
  exact foldFrame nonGradOf
    (fun (s : GraphState) (kv : String × Nat) =>
      match alookup s.paramGrads kv.2 with
      | some _ => s
      | none => { s with paramGrads := ainsert s.paramGrads kv.2 0 })
    (fun b kv => by
      dsimp only
      split
      · rfl
      · rfl)
    st.paramsMap st

theorem pab_grads (st : GraphState) :
    (paramsAllocateBackward st).grads = st.grads := by
  unfold paramsAllocateBackward
  exact foldFrame (fun s : GraphState => s.grads)
    (fun (s : GraphState) (kv : String × Nat) =>
      match alookup s.paramGrads kv.2 with
      | some _ => s
      | none => { s with paramGrads := ainsert s.paramGrads kv.2 0 })
    (fun b kv => by
      dsimp only
      split
      · rfl
      · rfl)
    st.paramsMap st

theorem pab_pair (l : List (String × Nat)) :
    ∀ (sA sB : GraphState), sB.paramGrads = sA.paramGrads →
    (l.foldl (fun s kv =>
      match alookup s.paramGrads kv.2 with
      | some _ => s
      | none => { s with paramGrads := ainsert s.paramGrads kv.2 0 }) sB
      ).paramGrads =
    (l.foldl (fun s kv =>
      match alookup s.paramGrads kv.2 with
      | some _ => s
      | none => { s with paramGrads := ainsert s.paramGrads kv.2 0 }) sA
      ).paramGrads := by
  induction l with
  | nil => intro sA sB h; exact h
  | cons kv rest ih =>
    intro sA sB h
    simp only [List.foldl]
    apply ih
    rw [h]
    cases halo : alookup sA.paramGrads kv.2 with
    | some y =>
      dsimp only
      exact h
    | none =>
      dsimp only

theorem pab_pair_full (sA sB : GraphState)
    (hmap : sB.paramsMap = sA.paramsMap)
    (hpg : sB.paramGrads = sA.paramGrads) :
    (paramsAllocateBackward sB).paramGrads
    = (paramsAllocateBackward sA).paramGrads := by
  unfold paramsAllocateBackward
  rw [hmap]
  exact pab_pair sA.paramsMap sA sB hpg

theorem psza_nonGrad (st : GraphState) :
    nonGradOf (paramsSetZeroAdjoint st).1 = nonGradOf st := by
  unfold paramsSetZeroAdjoint
  exact foldFrame (fun p : GraphState × List BEvent => nonGradOf p.1)
    (fun (acc : GraphState × List BEvent) kv =>
      ({ acc.1 with paramGrads := ainsert acc.1.paramGrads kv.2 0 }
      , acc.2 ++ [BEvent.zeroed kv.2]))
    (fun b kv => rfl) st.paramsMap (st, [])

theorem psza_grads (st : GraphState) :
    (paramsSetZeroAdjoint st).1.grads = st.grads := by
  unfold paramsSetZeroAdjoint
  exact foldFrame (fun p : GraphState × List BEvent => p.1.grads)
    (fun (acc : GraphState × List BEvent) kv =>
      ({ acc.1 with paramGrads := ainsert acc.1.paramGrads kv.2 0 }
      , acc.2 ++ [BEvent.zeroed kv.2]))
    (fun b kv => rfl) st.paramsMap (st, [])

theorem psza_pair (l : List (String × Nat)) :
    ∀ (pA pB : GraphState × List BEvent),
    pB.1.paramGrads = pA.1.paramGrads →
    ((l.foldl (fun (acc : GraphState × List BEvent) kv =>
      ({ acc.1 with paramGrads := ainsert acc.1.paramGrads kv.2 0 }
      , acc.2 ++ [BEvent.zeroed kv.2])) pB).1).paramGrads =
    ((l.foldl (fun (acc : GraphState × List BEvent) kv =>
      ({ acc.1 with paramGrads := ainsert acc.1.paramGrads kv.2 0 }
      , acc.2 ++ [BEvent.zeroed kv.2])) pA).1).paramGrads := by
  induction l with
  | nil => intro pA pB h; exact h
  | cons kv rest ih =>
    intro pA pB h
    simp only [List.foldl]
    apply ih
    show ainsert pB.1.paramGrads kv.2 0 = ainsert pA.1.paramGrads kv.2 0
    rw [h]

theorem psza_pair_full (sA sB : GraphState)
    (hmap : sB.paramsMap = sA.paramsMap)
    (hpg : sB.paramGrads = sA.paramGrads) :
    (paramsSetZeroAdjoint sB).1.paramGrads
    = (paramsSetZeroAdjoint sA).1.paramGrads := by
  unfold paramsSetZeroAdjoint
  rw [hmap]
  exact psza_pair sA.paramsMap (sA, []) (sB, []) hpg

theorem idep_fold_nonGrad (l : List Nat) (s : GraphState) :
    nonGradOf (l.foldl init_dependent s) = nonGradOf s :=
  foldFrame nonGradOf init_dependent
    (fun b r => nonGradOf_init_dependent b r) l s

theorem idep_fold_pair (l : List Nat) :
    ∀ (sA sB : GraphState), gradCtx sB = gradCtx sA →
    gradCtx (l.foldl init_dependent sB) = gradCtx (l.foldl init_dependent sA)
    := by
  induction l with
  | nil => intro sA sB h; exact h
  | cons r rest ih =>
    intro sA sB h
    simp only [List.foldl]
    exact ih _ _ (init_dependent_lockstep h r)

theorem grads_of_ctrl {s s' : GraphState} (h : ctrlOf s' = ctrlOf s) :
    s'.grads = s.grads :=
  congrArg (fun t => t.2.1) h

theorem paramGrads_of_ctrl {s s' : GraphState} (h : ctrlOf s' = ctrlOf s) :
    s'.paramGrads = s.paramGrads :=
  congrArg (fun t => t.2.2.1) h

theorem nodesBackward_of_ctrl {s s' : GraphState}
    (h : ctrlOf s' = ctrlOf s) : s'.nodesBackward = s.nodesBackward :=
  congrArg (fun t => t.2.2.2.2.2.2.1) h

theorem topNodes_of_ctrl {s s' : GraphState} (h : ctrlOf s' = ctrlOf s) :
    s'.topNodes = s.topNodes :=
  congrArg (fun t => t.2.2.2.2.2.2.2.1) h

theorem paramsMap_of_ctrl {s s' : GraphState} (h : ctrlOf s' = ctrlOf s) :
    s'.paramsMap = s.paramsMap :=
  congrArg (fun t => t.2.2.2.2.2.2.2.2.1) h

theorem valsAgree_refl (s : GraphState) : valsAgree s s := by
  intro r x y hx hy
  rw [hx] at hy
  injection hy

theorem setGrad_nodesBackward (st : GraphState) (r : Nat) (g : Int) :
    (setGrad st r g).nodesBackward = st.nodesBackward := by
  unfold setGrad
  split <;> rfl

theorem idep_fold_nodesBackward (l : List Nat) (s : GraphState) :
    (l.foldl init_dependent s).nodesBackward = s.nodesBackward :=
  foldFrame (fun s : GraphState => s.nodesBackward) init_dependent
    (fun b r => by
      unfold init_dependent
      split
      · rfl
      · exact setGrad_nodesBackward _ _ _) l s

theorem pab_topNodes (st : GraphState) :
    (paramsAllocateBackward st).topNodes = st.topNodes := by
  unfold paramsAllocateBackward
  exact foldFrame (fun s : GraphState => s.topNodes)
    (fun s kv =>
      match alookup s.paramGrads kv.2 with
      | some _ => s
      | none => { s with paramGrads := ainsert s.paramGrads kv.2 0 })
    (fun b kv => by
      dsimp only
      split
      · rfl
      · rfl)
    st.paramsMap st

theorem pab_paramsMap (st : GraphState) :
    (paramsAllocateBackward st).paramsMap = st.paramsMap := by
  unfold paramsAllocateBackward
  exact foldFrame (fun s : GraphState => s.paramsMap)
    (fun s kv =>
      match alookup s.paramGrads kv.2 with
      | some _ => s
      | none => { s with paramGrads := ainsert s.paramGrads kv.2 0 })
    (fun b kv => by
      dsimp only
      split
      · rfl
      · rfl)
    st.paramsMap st

theorem psza_topNodes (st : GraphState) :
    (paramsSetZeroAdjoint st).1.topNodes = st.topNodes := by
  unfold paramsSetZeroAdjoint
  exact foldFrame (fun p : GraphState × List BEvent => p.1.topNodes)
    (fun (acc : GraphState × List BEvent) kv =>
      ({ acc.1 with paramGrads := ainsert acc.1.paramGrads kv.2 0 }
      , acc.2 ++ [BEvent.zeroed kv.2]))
    (fun b kv => rfl) st.paramsMap (st, [])

/-- Lockstep simulation of `backward(zero := true)` after both forward
passes: with the forward-phase invariants, the two runs finish with equal
gradient stores. -/
theorem backward_phase (arena0 : List NodeData) (sA1 sB1 : GraphState)
    (stA stB : GraphState) (evA evB : List BEvent)
    (hlt0 : ChildrenLt arena0)
    (h1 : sB1.arena = sA1.arena)
    (h2 : sA1.arena = arena0)
    (h3 : sB1.grads = sA1.grads)
    (h4 : sB1.paramGrads = sA1.paramGrads)
    (h5 : sB1.topNodes = sA1.topNodes)
    (h6 : sB1.paramsMap = sA1.paramsMap)
    (h7 : sB1.nodesBackward = sA1.nodesBackward)
    (hascA : ascB sA1.nodesBackward = true)
    (h9 : sA1.checkpointing = false)
    (h10 : sB1.inferenceOnly = false)
    (h11 : valsAgree sA1 sB1)
    (h12 : ValsConsistent arena0 sA1)
    (h13 : SubtapeBound sB1)
    (hA : backward sA1 true = Except.ok (stA, evA))
    (hB : backward sB1 true = Except.ok (stB, evB)) :
    stB.grads = stA.grads ∧ stB.paramGrads = stA.paramGrads := by
  unfold backward at hA hB
  split at hA
  · exact Except.noConfusion hA
  split at hB
  · exact Except.noConfusion hB
  dsimp only at hA hB
  rw [if_pos (rfl : (true : Bool) = true)] at hA hB
  split at hA
  · exact Except.noConfusion hA
  next st4A evs4A heqCA =>
    split at hB
    · exact Except.noConfusion hB
    next st4B evs4B heqCB =>
      injection hA with hA1
      injection hA1 with hstA hevA
      injection hB with hB1
      injection hB1 with hstB hevB
      rw [idep_fold_nodesBackward, paramsSetZeroAdjoint_nodesBackward,
        paramsAllocateBackward_nodesBackward] at heqCA
      rw [idep_fold_nodesBackward, paramsSetZeroAdjoint_nodesBackward,
        paramsAllocateBackward_nodesBackward, h7] at heqCB
      have hciA : ∀ r, getVal (List.foldl init_dependent
          (paramsSetZeroAdjoint (paramsAllocateBackward sA1)).1
          (paramsSetZeroAdjoint (paramsAllocateBackward sA1)).1.topNodes) r
          = getVal sA1 r :=
        fun r => (getVal_congr_nonGrad (idep_fold_nonGrad _ _) r).trans
          ((getVal_congr_nonGrad (psza_nonGrad _) r).trans
            (getVal_congr_nonGrad (pab_nonGrad _) r))
      have hciB : ∀ r, getVal (List.foldl init_dependent
          (paramsSetZeroAdjoint (paramsAllocateBackward sB1)).1
          (paramsSetZeroAdjoint (paramsAllocateBackward sB1)).1.topNodes) r
          = getVal sB1 r :=
        fun r => (getVal_congr_nonGrad (idep_fold_nonGrad _ _) r).trans
          ((getVal_congr_nonGrad (psza_nonGrad _) r).trans
            (getVal_congr_nonGrad (pab_nonGrad _) r))
      have hgz : gradCtx (paramsSetZeroAdjoint (paramsAllocateBackward sB1)).1
          = gradCtx (paramsSetZeroAdjoint (paramsAllocateBackward sA1)).1 := by
        unfold gradCtx
        rw [arena_of_nonGrad (psza_nonGrad _),
          arena_of_nonGrad (pab_nonGrad _),
          arena_of_nonGrad (psza_nonGrad _),
          arena_of_nonGrad (pab_nonGrad _), h1,
          psza_grads, pab_grads, psza_grads, pab_grads, h3,
          psza_pair_full (paramsAllocateBackward sA1)
            (paramsAllocateBackward sB1)
            (by rw [pab_paramsMap, pab_paramsMap, h6])
            (pab_pair_full sA1 sB1 h6 h4)]
      have hsubB4 : (List.foldl init_dependent
          (paramsSetZeroAdjoint (paramsAllocateBackward sB1)).1
          (paramsSetZeroAdjoint (paramsAllocateBackward sB1)).1.topNodes
          ).subtapes = sB1.subtapes :=
        (subtapes_of_nonGrad (idep_fold_nonGrad _ _)).trans
          ((subtapes_of_nonGrad (psza_nonGrad _)).trans
            (subtapes_of_nonGrad (pab_nonGrad _)))
      have haa : (List.foldl init_dependent
          (paramsSetZeroAdjoint (paramsAllocateBackward sA1)).1
          (paramsSetZeroAdjoint (paramsAllocateBackward sA1)).1.topNodes
          ).arena = arena0 :=
        (arena_of_nonGrad (idep_fold_nonGrad _ _)).trans
          ((arena_of_nonGrad (psza_nonGrad _)).trans
            ((arena_of_nonGrad (pab_nonGrad _)).trans h2))
      obtain ⟨gf1, gf2⟩ := backwardConsume_lockstep arena0
        sA1.nodesBackward.reverse _ _ (st4A, evs4A) (st4B, evs4B)
        (by
          rw [List.pairwise_reverse]
          exact pairwise_of_ascB _ hascA)
        hlt0
        (by
          dsimp only
          rw [checkpointing_of_nonGrad (idep_fold_nonGrad _ _),
            checkpointing_of_nonGrad (psza_nonGrad _),
            checkpointing_of_nonGrad (pab_nonGrad _)]
          exact h9)
        (by
          dsimp only
          rw [inferenceOnly_of_nonGrad (idep_fold_nonGrad _ _),
            inferenceOnly_of_nonGrad (psza_nonGrad _),
            inferenceOnly_of_nonGrad (pab_nonGrad _)]
          exact h10)
        (by
          dsimp only
          rw [arena_of_nonGrad (idep_fold_nonGrad _ _),
            arena_of_nonGrad (psza_nonGrad _),
            arena_of_nonGrad (pab_nonGrad _),
            arena_of_nonGrad (idep_fold_nonGrad _ _),
            arena_of_nonGrad (psza_nonGrad _),
            arena_of_nonGrad (pab_nonGrad _)]
          exact h1)
        (by
          dsimp only
          rw [psza_topNodes, pab_topNodes, psza_topNodes, pab_topNodes, h5]
          exact grads_of_gradCtx (idep_fold_pair _ _ _ hgz))
        (by
          dsimp only
          rw [psza_topNodes, pab_topNodes, psza_topNodes, pab_topNodes, h5]
          exact paramGrads_of_gradCtx (idep_fold_pair _ _ _ hgz))
        (by exact valsAgree_congr hciA hciB h11)
        (by exact valsConsistent_congr arena0 hciA h12)
        (by
          intro u hu r hr
          dsimp only
          rw [haa])
        (by exact subtapeBound_congr sB1 _ hsubB4 h13)
        heqCA heqCB
      constructor
      · rw [← hstA, ← hstB]
        exact gf1
      · rw [← hstA, ← hstB]
        exact gf2

theorem arena_of_core {s s' : GraphState} (h : coreOf s' = coreOf s) :
    s'.arena = s.arena :=
  congrArg (fun t => t.1) h

theorem vals_of_core {s s' : GraphState} (h : coreOf s' = coreOf s) :
    s'.vals = s.vals :=
  congrArg (fun t => t.2.1) h

theorem cacheVals_of_core {s s' : GraphState} (h : coreOf s' = coreOf s) :
    s'.cacheVals = s.cacheVals :=
  congrArg (fun t => t.2.2.1) h

theorem paramVals_of_core {s s' : GraphState} (h : coreOf s' = coreOf s) :
    s'.paramVals = s.paramVals :=
  congrArg (fun t => t.2.2.2.1) h

theorem grads_of_core {s s' : GraphState} (h : coreOf s' = coreOf s) :
    s'.grads = s.grads :=
  congrArg (fun t => t.2.2.2.2.1) h

theorem paramGrads_of_core {s s' : GraphState} (h : coreOf s' = coreOf s) :
    s'.paramGrads = s.paramGrads :=
  congrArg (fun t => t.2.2.2.2.2.1) h

theorem nodesForward_of_core {s s' : GraphState} (h : coreOf s' = coreOf s) :
    s'.nodesForward = s.nodesForward :=
  congrArg (fun t => t.2.2.2.2.2.2.1) h

theorem nodesBackward_of_core {s s' : GraphState} (h : coreOf s' = coreOf s) :
    s'.nodesBackward = s.nodesBackward :=
  congrArg (fun t => t.2.2.2.2.2.2.2.1) h

theorem topNodes_of_core {s s' : GraphState} (h : coreOf s' = coreOf s) :
    s'.topNodes = s.topNodes :=
  congrArg (fun t => t.2.2.2.2.2.2.2.2.1) h

theorem paramsMap_of_core {s s' : GraphState} (h : coreOf s' = coreOf s) :
    s'.paramsMap = s.paramsMap :=
  congrArg (fun t => t.2.2.2.2.2.2.2.2.2.1) h

theorem io_of_core {s s' : GraphState} (h : coreOf s' = coreOf s) :
    s'.inferenceOnly = s.inferenceOnly :=
  congrArg (fun t => t.2.2.2.2.2.2.2.2.2.2.1) h

theorem ck_of_core {s s' : GraphState} (h : coreOf s' = coreOf s) :
    s'.checkpointing = s.checkpointing :=
  congrArg (fun t => t.2.2.2.2.2.2.2.2.2.2.2) h

theorem valsConsistent_arena (arena : List NodeData)
    (arena' : List NodeData) (st : GraphState) (h : arena' = arena)
    (hc : ValsConsistent arena st) : ValsConsistent arena' st := by
  rw [h]
  exact hc

/-- Lockstep simulation of the forward phase of `backprop`: running
`forward()` with and without checkpointing from the same well-formed fresh
graph establishes all the invariants the backward phase needs. -/
theorem forward_phase (G : GraphState) (stA1 stB1 : GraphState)
    (hInf : G.inferenceOnly = false)
    (hck : G.checkpointing = false)
    (hltB : childrenLtB G.arena = true)
    (hv : G.vals = []) (hcv : G.cacheVals = []) (hpv : G.paramVals = [])
    (hsub : G.subtapes = [])
    (hwf : paramsWfB G = true)
    (hFA : forward G = Except.ok stA1)
    (hFB : forward { G with checkpointing := true } = Except.ok stB1) :
    stB1.arena = stA1.arena ∧ stA1.arena = G.arena ∧
    stB1.grads = stA1.grads ∧ stB1.paramGrads = stA1.paramGrads ∧
    stB1.topNodes = stA1.topNodes ∧ stB1.paramsMap = stA1.paramsMap ∧
    stB1.nodesBackward = stA1.nodesBackward ∧
    stA1.nodesBackward = G.nodesBackward ∧
    stA1.checkpointing = false ∧ stB1.inferenceOnly = false ∧
    valsAgree stA1 stB1 ∧ ValsConsistent G.arena stA1 ∧ SubtapeBound stB1
    := by
  have hfr := paf_frame G
  have a1 : (paramsAllocateForward G).arena = G.arena :=
    congrArg (fun t => t.1) hfr
  have a6 : (paramsAllocateForward G).subtapes = G.subtapes :=
    congrArg (fun t => t.2.2.2.2.2.1) hfr
  have a8 : (paramsAllocateForward G).nodesForward = G.nodesForward :=
    congrArg (fun t => t.2.2.2.2.2.2.2.1) hfr
  have a9 : (paramsAllocateForward G).nodesBackward = G.nodesBackward :=
    congrArg (fun t => t.2.2.2.2.2.2.2.2.1) hfr
  have a12 : (paramsAllocateForward G).inferenceOnly = G.inferenceOnly :=
    congrArg (fun t => t.2.2.2.2.2.2.2.2.2.2.2.1) hfr
  have a13 : (paramsAllocateForward G).checkpointing = G.checkpointing :=
    congrArg (fun t => t.2.2.2.2.2.2.2.2.2.2.2.2) hfr
  unfold forward at hFA hFB
  rw [paf_flag G] at hFB
  unfold forwardNext at hFA hFB
  dsimp only at hFA hFB
  rw [show (paramsAllocateForward G).checkpointing = false from
    a13.trans hck] at hFA
  simp only [Bool.false_eq_true, if_false, Bool.not_false] at hFA
  rw [if_pos (rfl : (true : Bool) = true)] at hFB
  rw [ck_of_core (planCheckpoints_core _),
    nodesForward_of_core (planCheckpoints_core _)] at hFB
  dsimp only at hFB
  simp only [Bool.not_true] at hFB
  split at hFA
  · exact Except.noConfusion hFA
  next stA0 heqRunA =>
    split at hFB
    · exact Except.noConfusion hFB
    next stB0 heqRunB =>
      injection hFA with hA1
      injection hFB with hB1
      obtain ⟨ctrlA, ctrlB, hagF, hconsF⟩ := forwardTapeRun_lockstep
        (paramsAllocateForward G).nodesForward _ _ stA0 stB0
        (by exact a12.trans hInf)
        (by
          rw [io_of_core (planCheckpoints_core _)]
          exact a12.trans hInf)
        (by
          rw [arena_of_core (planCheckpoints_core _)])
        (by
          dsimp only
          rw [a1]
          exact childrenLt_of_B _ hltB)
        (by
          refine valsAgree_congr (fun r => rfl) ?_ (valsAgree_refl _)
          intro r
          unfold getVal nodeAt
          rw [arena_of_core (planCheckpoints_core _),
            vals_of_core (planCheckpoints_core _),
            cacheVals_of_core (planCheckpoints_core _),
            paramVals_of_core (planCheckpoints_core _)])
        (by
          refine valsConsistent_arena G.arena _ _ ?_ ?_
          · exact a1
          · exact @valsConsistent_congr G.arena (paramsAllocateForward G) _
              (fun r => rfl) (paf_consistent G hwf hv hcv hpv))
        heqRunA heqRunB
      subst hA1
      subst hB1
      refine ⟨?_, ?_, ?_, ?_, ?_, ?_, ?_, ?_, ?_, ?_, ?_, ?_, ?_⟩
      · dsimp only
        rw [arena_of_ctrl ctrlB, arena_of_ctrl ctrlA,
          arena_of_core (planCheckpoints_core _)]
      · dsimp only
        rw [arena_of_ctrl ctrlA]
        dsimp only
        exact a1
      · dsimp only
        rw [grads_of_ctrl ctrlB, grads_of_ctrl ctrlA,
          grads_of_core (planCheckpoints_core _)]
      · dsimp only
        rw [paramGrads_of_ctrl ctrlB, paramGrads_of_ctrl ctrlA,
          paramGrads_of_core (planCheckpoints_core _)]
      · dsimp only
        rw [topNodes_of_ctrl ctrlB, topNodes_of_ctrl ctrlA,
          topNodes_of_core (planCheckpoints_core _)]
      · dsimp only
        rw [paramsMap_of_ctrl ctrlB, paramsMap_of_ctrl ctrlA,
          paramsMap_of_core (planCheckpoints_core _)]
      · dsimp only
        rw [nodesBackward_of_ctrl ctrlB, nodesBackward_of_ctrl ctrlA,
          nodesBackward_of_core (planCheckpoints_core _)]
      · dsimp only
        rw [nodesBackward_of_ctrl ctrlA]
        dsimp only
        exact a9
      · dsimp only
        rw [checkpointing_of_ctrl ctrlA]
      · dsimp only
        rw [inferenceOnly_of_ctrl ctrlB,
          io_of_core (planCheckpoints_core _)]
        dsimp only
        exact a12.trans hInf
      · exact @valsAgree_congr stA0 stB0 _ _ (fun r => rfl) (fun r => rfl)
          hagF
      · have e : stA0.arena = G.arena := by
          rw [arena_of_ctrl ctrlA]
          dsimp only
          exact a1
        rw [e] at hconsF
        exact @valsConsistent_congr G.arena stA0 _ (fun r => rfl) hconsF
      · refine subtapeBound_congr stB0 _ rfl ?_
        refine subtapeBound_congr _ stB0 (subtapes_of_ctrl ctrlB) ?_
        refine planCheckpoints_bound _ ?_ ?_
        · dsimp only
          rw [a1]
          exact childrenLt_of_B _ hltB
        · intro v l hl
          dsimp only at hl
          rw [a6, hsub] at hl
          exact Option.noConfusion hl

/-- C5.  Checkpointing equivalence: for a fixed well-formed graph and fixed
inputs, if `backprop()` (forward then backward) completes both with
checkpointing disabled and with checkpointing enabled, the two runs finish
with identical gradient stores — in particular identical parameter
gradients. -/
theorem checkpointing_equivalence (G : GraphState)
    (stA stB : GraphState) (evA evB : List BEvent)
    (hInf : G.inferenceOnly = false)
    (hck : G.checkpointing = false)
    (hltB : childrenLtB G.arena = true)
    (hasc : ascB G.nodesBackward = true)
    (hv : G.vals = []) (hcv : G.cacheVals = []) (hpv : G.paramVals = [])
    (hsub : G.subtapes = [])
    (hwf : paramsWfB G = true)
    (hA : backprop G = Except.ok (stA, evA))
    (hB : backprop { G with checkpointing := true } = Except.ok (stB, evB)) :
    stB.paramGrads = stA.paramGrads ∧ stB.grads = stA.grads := by
  unfold backprop at hA hB
  split at hA
  · exact Except.noConfusion hA
  next stA1 hFA =>
    split at hB
    · exact Except.noConfusion hB
    next stB1 hFB =>
      obtain ⟨k1, k2, k3, k4, k5, k6, k7, k8, k9, k10, k11, k12, k13⟩ :=
        forward_phase G stA1 stB1 hInf hck hltB hv hcv hpv hsub hwf hFA hFB
      obtain ⟨g1, g2⟩ := backward_phase G.arena stA1 stB1 stA stB evA evB
        (childrenLt_of_B _ hltB) k1 k2 k3 k4 k5 k6 k7
        (by rw [k8]; exact hasc)
        k9 k10 k11 k12 k13 hA hB
      exact ⟨g2, g1⟩

set_option maxHeartbeats 4000000 in
theorem checkpointing_equivalence_witness :
    backprop c5G = Except.ok c5resA ∧
    backprop { c5G with checkpointing := true } = Except.ok c5resB ∧
    c5resB.1.paramGrads = c5resA.1.paramGrads ∧
    c5resB.1.grads = c5resA.1.grads := by
  have h := checkpointing_equivalence c5G c5resA.1 c5resB.1 c5resA.2 c5resB.2
    rfl rfl (by decide) (by decide) rfl rfl rfl rfl (by decide) rfl rfl
  exact ⟨rfl, rfl, h.1, h.2⟩

end Marian
